import Mathlib

/-!
Verification development for the kbl-automator fuzzy product-matching engine.

This file is a shallow embedding, in Lean 4, of the matching core of the
repository: `src/product_catalogue_manager.py` (class `ProductCatalogueManager`)
and `src/manual_product_mappings.py`.  Python strings are modelled as `String`
or `List Char`; Python floats are modelled as exact rationals `ℚ` (the
idealised arithmetic of the scoring constants); pandas DataFrames are modelled
as a list of typed rows plus a column list; file I/O is modelled by explicit
state passing; `logging` calls are modelled as an explicit list of log entries.

Modelling conventions, stated once:
* `str.lower()` is modelled by `Char.toLower` (ASCII case mapping; all data in
  the repository tables is ASCII).
* the regex fragments used by the source (`.*`, `\s*`, `\s+`, `\b`, `[sz]`,
  `(\d+)`, alternation of literals, `$`-anchored suffixes) are embedded by a
  small backtracking matcher and by bespoke scanners for the groups whose
  captured text matters; `\s` is the ASCII whitespace set, `\w` the ASCII
  word-character set, matching the ASCII data the program processes.
* `difflib.SequenceMatcher(None, a, b).ratio()` is embedded by the
  Ratcliff/Obershelp computation (recursive longest-matching-block total);
  the `autojunk` heuristic only activates for strings of length ≥ 200 and is
  not modelled.
-/

namespace KBL

/-! ## Basic character and string utilities -/

/-- ASCII whitespace, the set matched by the `\s` regex class and used by
Python `str.split()` / `str.strip()` on ASCII data. -/
def isSpace (c : Char) : Bool :=
  c = ' ' || c = '\t' || c = '\n' || c = '\r' || c = '\x0b' || c = '\x0c'

/-- ASCII word character, the set matched by the `\w` class and used for the
`\b` word-boundary assertion. -/
def isWordChar (c : Char) : Bool :=
  c.isAlphanum || c = '_'

/-- `str.lower()` on a character list (ASCII case mapping). -/
def lowerL (l : List Char) : List Char :=
  l.map Char.toLower

/-- Python substring containment `needle in hay`. -/
def containsSub (needle : List Char) (hay : List Char) : Bool :=
  needle.isPrefixOf hay ||
    match hay with
    | [] => false
    | _ :: t => containsSub needle t

/-- `str.split()` with no argument: split on runs of whitespace, dropping
empty pieces. -/
def splitW : List Char → List (List Char)
  | [] => []
  | c :: rest =>
    if isSpace c then splitW rest
    else (c :: rest.takeWhile (fun d => !isSpace d)) :: splitW (rest.dropWhile (fun d => !isSpace d))
termination_by l => l.length
decreasing_by
  all_goals simp only [List.length_cons]
  · omega
  · exact Nat.lt_succ_of_le (List.Sublist.length_le (List.dropWhile_sublist _))

/-- `" ".join(words)`. -/
def joinW : List (List Char) → List Char
  | [] => []
  | [w] => w
  | w :: ws => w ++ ' ' :: joinW ws

/-- `" ".join(s.split())`: collapse whitespace runs to single spaces and trim. -/
def collapseWs (l : List Char) : List Char :=
  joinW (splitW l)

/-- Python `str.strip()` (whitespace from both ends). -/
def stripEnds (l : List Char) : List Char :=
  ((l.dropWhile isSpace).reverse.dropWhile isSpace).reverse

/-- Digit run to the number it denotes (`int(...)` on a digit string). -/
def digitsToNat (l : List Char) : Nat :=
  l.foldl (fun acc c => acc * 10 + (c.toNat - '0'.toNat)) 0

/-! ## A small regex-fragment matcher

Tokens cover exactly the constructs used by the source patterns: literal
strings, `.*`, `\s*`, a one-character class such as `[sz]`, and the `\b`
word-boundary assertion.  `reSearch toks s` is Python `re.search(pat, s)`
viewed as a Boolean (does any match exist). -/

inductive RTok
  | lit (w : List Char)
  | anyStar
  | wsStar
  | cls (cs : List Char)
  | bound
deriving DecidableEq

/-- Literal token from a string literal. -/
def L (s : String) : RTok :=
  .lit s.toList

/-- Does the character option count as a word character (`none` = string edge,
never a word character). -/
def isWordOpt : Option Char → Bool
  | none => false
  | some c => isWordChar c

/-- Consume a literal from the front of `cs`, tracking the new previous
character; `none` when the literal is not a prefix. -/
def litConsume : List Char → Option Char → List Char → Option (Option Char × List Char)
  | [], prev, cs => some (prev, cs)
  | _ :: _, _, [] => none
  | a :: w, _, c :: rest => if a = c then litConsume w (some a) rest else none

/-- All suffixes reachable by consuming leading whitespace (the positions a
greedy-with-backtracking `\s*` can stop at), with the previous character of
each. -/
def wsTails (prev : Option Char) : List Char → List (Option Char × List Char)
  | [] => [(prev, [])]
  | c :: rest => (prev, c :: rest) :: (if isSpace c then wsTails (some c) rest else [])

/-- All suffixes (the positions `.*` can stop at), with the previous
character of each. -/
def allTails (prev : Option Char) : List Char → List (Option Char × List Char)
  | [] => [(prev, [])]
  | c :: rest => (prev, c :: rest) :: allTails (some c) rest

/-- Match the token list against a prefix of `cs`; `prev` is the character
immediately before `cs` in the full subject (for `\b`).  The star tokens
existentially try every stopping position, which is the match-existence
semantics of the greedy Python quantifiers. -/
def matchToks (prev : Option Char) : List RTok → List Char → Bool
  | [], _ => true
  | .lit w :: ts, cs =>
    match litConsume w prev cs with
    | some pc => matchToks pc.1 ts pc.2
    | none => false
  | .cls set :: ts, cs =>
    match cs with
    | [] => false
    | c :: rest => set.contains c && matchToks (some c) ts rest
  | .wsStar :: ts, cs => (wsTails prev cs).any (fun pc => matchToks pc.1 ts pc.2)
  | .anyStar :: ts, cs => (allTails prev cs).any (fun pc => matchToks pc.1 ts pc.2)
  | .bound :: ts, cs =>
    (isWordOpt prev != isWordOpt cs.head?) && matchToks prev ts cs

/-- `re.search` as existence of a match starting at any position. -/
def searchFrom (prev : Option Char) (toks : List RTok) : List Char → Bool
  | [] => matchToks prev toks []
  | c :: rest => matchToks prev toks (c :: rest) || searchFrom (some c) toks rest

/-- `re.search(pat, s) is not None` for a token-list pattern. -/
def reSearch (toks : List RTok) (s : List Char) : Bool :=
  searchFrom none toks s

/-! ## Bespoke scanners for the capturing regexes

These embed the `re.search` calls whose captured groups feed the logic.
Each scans positions left to right; at a candidate start the quantifiers
involved (`\d+` before a non-digit continuation, `\s*` / `\s+` before a
non-space continuation) admit only the maximal-munch parse, so the scanners
take the maximal run, exactly as the Python regexes do. -/

/-- the size regex `(\d+)\s*(g|ml|mg)` via `re.search`: the size token, digits then unit. -/
def sizeScan : List Char → Option (List Char)
  | [] => none
  | c :: rest =>
    if c.isDigit then
      let ds := (c :: rest).takeWhile Char.isDigit
      let after := ((c :: rest).dropWhile Char.isDigit).dropWhile isSpace
      if "ml".toList.isPrefixOf after then some (ds ++ "ml".toList)
      else if "mg".toList.isPrefixOf after then some (ds ++ "mg".toList)
      else if "g".toList.isPrefixOf after then some (ds ++ "g".toList)
      else sizeScan rest
    else sizeScan rest

/-- the quantity regex `x\s*(\d+)` via `re.search`: the quantity after an `x`. -/
def qtyScan : List Char → Option Nat
  | [] => none
  | c :: rest =>
    if c = 'x' then
      let ds := (rest.dropWhile isSpace).takeWhile Char.isDigit
      if ds.isEmpty then qtyScan rest else some (digitsToNat ds)
    else qtyScan rest

/-- the regex `(\d+)\s*\+\s*1` via `re.search`: the base quantity of an `N+1` pattern. -/
def plusOneScan : List Char → Option Nat
  | [] => none
  | c :: rest =>
    if c.isDigit then
      let ds := (c :: rest).takeWhile Char.isDigit
      let after := ((c :: rest).dropWhile Char.isDigit).dropWhile isSpace
      match after with
      | '+' :: after2 =>
        match after2.dropWhile isSpace with
        | '1' :: _ => some (digitsToNat ds)
        | _ => plusOneScan rest
      | _ => plusOneScan rest
    else plusOneScan rest

/-- the regex `(\d+)\s*pack\s*bundle` via `re.search`: the bundle pack count. -/
def packBundleScan : List Char → Option Nat
  | [] => none
  | c :: rest =>
    if c.isDigit then
      let ds := (c :: rest).takeWhile Char.isDigit
      let after := ((c :: rest).dropWhile Char.isDigit).dropWhile isSpace
      if "pack".toList.isPrefixOf after then
        match (after.drop 4).dropWhile isSpace with
        | a =>
          if "bundle".toList.isPrefixOf a then some (digitsToNat ds)
          else packBundleScan rest
      else packBundleScan rest
    else packBundleScan rest

/-- Helper for `countVariants`: a positive first argument skips that many
characters (the rest of an already-counted match). -/
def countVariantsGo : Nat → List Char → Nat
  | _, [] => 0
  | s + 1, _ :: rest => countVariantsGo s rest
  | 0, c :: rest =>
    if "pure white".toList.isPrefixOf (c :: rest) then 1 + countVariantsGo 9 rest
    else if "fresh green".toList.isPrefixOf (c :: rest) then 1 + countVariantsGo 10 rest
    else if "floral pink".toList.isPrefixOf (c :: rest) then 1 + countVariantsGo 10 rest
    else countVariantsGo 0 rest

/-- the length of `re.findall` for `(pure white|fresh green|floral pink)`: count of
non-overlapping occurrences, scanning left to right. -/
def countVariants (l : List Char) : Nat :=
  countVariantsGo 0 l

/-- the regex `\[([^\]]+)\]$` via `re.search`: the bracket group at the end of the
title.  A match starts at the leftmost `[` whose following text contains no
further `]` before the final character, which must be `]`, with non-empty
content.  Returns `(text before the bracket, content)`. -/
def findBracket : List Char → Option (List Char × List Char)
  | [] => none
  | c :: rest =>
    if c = '[' then
      let content := rest.takeWhile (fun d => d ≠ ']')
      let after := rest.dropWhile (fun d => d ≠ ']')
      if !content.isEmpty && after = [']'] then some ([], content)
      else (findBracket rest).map (fun pv => (c :: pv.1, pv.2))
    else (findBracket rest).map (fun pv => (c :: pv.1, pv.2))

/-! ## Embedding of `manual_product_mappings.py` -/

/-- A value of the `MANUAL_COST_MAPPINGS` table: `{"cost": ..., "cms_name": ...}`. -/
structure CostInfo where
  cost : ℚ
  cms_name : String
deriving DecidableEq

/-- `parse_bracket_selection`. -/
def parse_bracket_selection (ebay_title : String) : String × Option String :=
  match findBracket ebay_title.toList with
  | some (pre, content) => (String.mk (stripEnds pre), some (String.mk content))
  | none => (ebay_title, none)

/-- The ordered `types` table of `normalize_product_type`; each entry is a
product type name with its word-boundary patterns (an alternation is listed
as several patterns, matched as the union). -/
def typePatterns : List (String × List (List RTok)) :=
  [ ("soap", [[.bound, L "soap", .bound]]),
    ("lotion", [[.bound, L "lotion", .bound]]),
    ("toner", [[.bound, L "toner", .bound]]),
    ("face wash", [[.bound, L "face", .wsStar, L "wash", .bound],
                   [.bound, L "facial", .wsStar, L "wash", .bound]]),
    ("body wash", [[.bound, L "body", .wsStar, L "wash", .bound]]),
    ("cream", [[.bound, L "cream", .bound], [.bound, L "creme", .bound]]),
    ("deodorant", [[.bound, L "deodorant", .bound]]),
    ("cleanser", [[.bound, L "cleanser", .bound]]),
    ("serum", [[.bound, L "serum", .bound]]) ]

/-- `normalize_product_type`: first type whose pattern matches the lowered
title, in table order. -/
def normalize_product_type (title : String) : Option String :=
  let tl := lowerL title.toList
  (typePatterns.find? (fun e => e.2.any (fun p => reSearch p tl))).map (fun e => e.1)

/-- The result dictionary of `extract_size_and_quantity`. -/
structure SQInfo where
  size : Option String
  quantity : Option Nat
  is_multipack : Bool
deriving DecidableEq

/-- `extract_size_and_quantity`. -/
def extract_size_and_quantity (title : String) : SQInfo :=
  let tl := lowerL title.toList
  { size := (sizeScan tl).map String.mk
    quantity := qtyScan tl
    is_multipack := (qtyScan tl).isSome }

/-- Entries of `MANUAL_COST_MAPPINGS`, in source order. -/
def drWongSulfur : CostInfo := ⟨1.10, "Dr S. Wong\x27s Sulfur Soap 80g"⟩

def drWongMoist : CostInfo := ⟨1.18, "Dr S. Wong\x27s Sulfur Soap with Moisturizer 80g"⟩

def renewClassic : CostInfo := ⟨2.50, "Renew Placenta Classic Herbal Beauty Soap 135g"⟩

def renewWhite : CostInfo := ⟨2.50, "Renew Placenta White Skin Lightening Soap 135g"⟩

def cyGabrielPink : CostInfo :=
  ⟨1.14, "C.Y. Gabriel Special Pink Lightening & Brightening Beauty Soap 135g"⟩

def cyGabrielGreen : CostInfo :=
  ⟨1.14, "C.Y. Gabriel Special Green Lightening & Brightening Beauty Soap 135g"⟩

def cyGabrielPapaya : CostInfo :=
  ⟨1.14, "C.Y. Gabriel Papaya Lightening & Brightening Beauty Soap 135g"⟩

def cyGabrielKojic : CostInfo :=
  ⟨1.61, "C.Y. Gabriel Kojic with Glutathione Skin Lightening & Brightening Soap 135g"⟩

def closeupRedHot : CostInfo := ⟨3.31, "Closeup Red Hot Toothpaste 95ml (PH)"⟩

def closeupMenthol : CostInfo := ⟨3.31, "Closeup Menthol Fresh Toothpaste 95ml (PH)"⟩

def glutamaxMen : CostInfo := ⟨4.20, "GlutaMAX Men Facial Wash 100g"⟩

def kojieSan45g : CostInfo := ⟨0.81, "Kojie San Soap 45g"⟩

/-- `MANUAL_COST_MAPPINGS` as a (pattern, info) list in dict insertion order. -/
def MANUAL_COST_MAPPINGS : List (String × CostInfo) :=
  [ ("dr. s. wong\x27s sulfur soap 80g", drWongSulfur),
    ("dr. s. wong\x27s sulfur moisturising soap 80g", drWongMoist),
    ("renew placenta classic herbal beauty soap 135g", renewClassic),
    ("renew placenta white herbal beauty soap 135g", renewWhite),
    ("c. y. gabriel special pink soap 135g", cyGabrielPink),
    ("c. y. gabriel special green soap 135g", cyGabrielGreen),
    ("c. y. gabriel papaya soap 135g", cyGabrielPapaya),
    ("c. y. gabriel kojic soap 135g", cyGabrielKojic),
    ("closeup red hot toothpaste", closeupRedHot),
    ("closeup menthol fresh toothpaste", closeupMenthol),
    ("closeup ever fresh toothpaste", closeupMenthol),
    ("glutamax men total oil control facial face wash 100g", glutamaxMen),
    ("kojie san soap 45g", kojieSan45g) ]

/-- `get_manual_cost`. -/
def get_manual_cost (product_name : String) : Option CostInfo :=
  let pl := lowerL product_name.toList
  match (MANUAL_COST_MAPPINGS.find? (fun e => containsSub e.1.toList pl)).map (fun e => e.2) with
  | some info => some info
  | none =>
    if containsSub "closeup".toList pl && containsSub "toothpaste".toList pl &&
        containsSub "red hot".toList pl then
      some closeupRedHot
    else if containsSub "closeup".toList pl && containsSub "toothpaste".toList pl &&
        (containsSub "menthol".toList pl || containsSub "ever fresh".toList pl) then
      some closeupMenthol
    else if (containsSub "c. y. gabriel".toList pl || containsSub "c.y. gabriel".toList pl) &&
        containsSub "kojic".toList pl then
      some cyGabrielKojic
    else if (containsSub "c. y. gabriel".toList pl || containsSub "c.y. gabriel".toList pl) &&
        containsSub "pink".toList pl then
      some cyGabrielPink
    else if (containsSub "c. y. gabriel".toList pl || containsSub "c.y. gabriel".toList pl) &&
        containsSub "green".toList pl then
      some cyGabrielGreen
    else if (containsSub "c. y. gabriel".toList pl || containsSub "c.y. gabriel".toList pl) &&
        containsSub "papaya".toList pl then
      some cyGabrielPapaya
    else if containsSub "safeguard bundle pack".toList pl && containsSub "125g".toList pl &&
        1 < countVariants pl then
      some ⟨1.52 * (countVariants pl : ℚ),
            "Safeguard Bundle Pack " ++ toString (countVariants pl) ++ " bars"⟩
    else none

/-- `ASSORTED_COSMETICS_BRANDS`. -/
def ASSORTED_COSMETICS_BRANDS : List String :=
  ["flawlessly u", "flawlessly you"]

/-- `is_assorted_cosmetics`. -/
def is_assorted_cosmetics (product_name : String) : Bool :=
  let pl := lowerL product_name.toList
  ASSORTED_COSMETICS_BRANDS.any (fun b => containsSub b.toList pl)

/-- `get_flawlessly_u_unit_cost`, with the `FLAWLESSLY_U_BOX_PRICES` box
prices and unit counts inlined at their use sites as in the source. -/
def get_flawlessly_u_unit_cost (product_name : String) : ℚ :=
  let pl := lowerL product_name.toList
  if containsSub "soap".toList pl then
    if containsSub "green papaya".toList pl then
      (111.560 : ℚ) / 72
    else if containsSub "kojic".toList pl && containsSub "glutathione".toList pl then
      (81.680 : ℚ) / (48 * 2)
    else
      (97.230 : ℚ) / 72
  else if containsSub "lotion".toList pl && containsSub "pump".toList pl then
    (88.520 : ℚ) / 12
  else
    1.50

/-- `SPECIAL_MATCHING_RULES` as an ordered (pattern, canonical name) list. -/
def SPECIAL_MATCHING_RULES : List (List RTok × String) :=
  [ ([L "belo", .anyStar, L "kojic", .anyStar, L "tranexamic", .anyStar, L "bar",
      .anyStar, L "65g", .wsStar, L "x", .wsStar, L "3"],
     "Belo Kojic Acid & Tranexamic Acid Intensive Lightening & Brightening Bar 65g x 2 + 1 FREE"),
    ([L "belo", .anyStar, L "kojic", .anyStar, L "tranexamic", .anyStar,
      L "extra moisture", .anyStar, L "65g", .wsStar, L "x", .wsStar, L "2"],
     "Belo Kojic Acid & Tranexamic Acid EXTRA MOISTURE Bar 65g x 2"),
    ([L "belo", .anyStar, L "kojic", .anyStar, L "tranexamic", .anyStar,
      L "body wash", .anyStar, L "475ml"],
     "Belo Kojic Acid & Tranexamic Acid Skin Lightening & Brightening Body Wash 475ml"),
    ([L "gluta-c", .anyStar, L "facial", .anyStar, L "toner", .anyStar, L "100ml"],
     "Gluta-C Skin Lightening & Brightening Facial Toner 100ml"),
    ([L "gluta-c", .anyStar, L "facial", .anyStar, L "night", .anyStar, L "30ml"],
     "Gluta-C Skin Lightening & Brightening Facial NIGHT REPAIR Serum 30ml"),
    ([L "gluta-c", .anyStar, L "facial", .anyStar, L "day", .anyStar, L "cream",
      .anyStar, L "30ml"],
     "Gluta-C Skin Lightening & Brightening Facial DAY Cream 30ml"),
    ([L "gluta", .wsStar, L "lotion", .anyStar, L "spf", .anyStar, L "300ml"],
     "Gluta-C Skin Lightening & Brightening Body Lotion 300ml"),
    ([L "gluta", .anyStar, L "kojic", .anyStar, L "body lotion", .anyStar, L "spf",
      .anyStar, L "300ml"],
     "Gluta-C with Kojic Plus Skin Lightening & Brightening Body Lotion 300ml"),
    ([L "kojie san", .anyStar, L "body lotion", .anyStar, L "spf25", .anyStar, L "250"],
     "Kojie San KOJIC Skin Lightening & Brightening Lotion SPF25 250ml"),
    ([L "kojie san", .anyStar, L "body wash", .anyStar, L "300ml"],
     "Kojie San Skin Lightening Body Wash 300ml"),
    ([L "kojie san", .anyStar, L "facial", .anyStar, L "wash", .anyStar, L "100g"],
     "Kojie San Skin Lightening & Brightening Facial Wash 100g"),
    ([L "belo", .anyStar, L "papaya", .anyStar, L "soap", .anyStar, L "65g",
      .wsStar, L "x", .wsStar, L "3"],
     "Belo Essentials Skin Lightening & Brightening Papaya Soap 65g x 2 + 1 FREE"),
    ([L "belo", .anyStar, L "papaya", .anyStar, L "body lotion", .anyStar, L "spf30",
      .anyStar, L "200ml"],
     "Belo Essentials Skin Lightening & Brightening Papaya Lotion with SPF30 200ml"),
    ([L "belo", .anyStar, L "skin hydrating", .anyStar, L "toner", .anyStar, L "100ml"],
     "Belo Essentials Skin Hydrating Lightening & Brightening TONER 100ml"),
    ([L "glutamax", .anyStar, L "moisturi", .cls ['s', 'z'], L "ing", .anyStar,
      L "lotion", .anyStar, L "90ml"],
     "GlutaMax Lightening & Moisturizing Lotion 90ml"),
    ([L "seoul white", .anyStar, L "120g", .wsStar, L "x", .wsStar, L "3"],
     "Seoul White Korea Double White Intense Bright Kojic Arbutin 120g x2 + 1 Free"),
    ([L "silka", .anyStar, L "premium", .anyStar, L "body wash", .anyStar, L "500ml"],
     "Silka Papaya Luxe Lightening Body Wash 500ml"),
    ([L "silka", .anyStar, L "papaya", .anyStar, L "soap", .anyStar, L "90g",
      .wsStar, L "x", .wsStar, L "3"],
     "Silka Papaya Skin Lightening & brightening Soap 3 x 90g Soap (Triple Pack)"),
    ([L "glupa glutathione", .anyStar, L "whitening soap", .anyStar, L "135g"],
     "Glupa Glutathione & Papaya Skin Lightening & Brightening Soap 135g - NEW LOWER PRICE!"),
    ([L "gluta c kojic plus face and neck cream"],
     "Gluta-C with Kojic Plus Lightening & Brightening Face & Neck Cream 25g"),
    ([L "gluta-c facial day cream"],
     "Gluta-C Skin Lightening & Brightening Facial DAY Cream 30ml"),
    ([L "papaya calamansi extract whitening soap"],
     "Extract Skin Lightening & Brightening Herbal Soap Papaya Calamansi 125g"),
    ([L "kojie san", .anyStar, L "lightening", .anyStar, L "soap", .anyStar,
      L "3 bars", .anyStar, L "100g"],
     "Kojie San Skin Lightening & Brightening Soap 100g x 3"),
    ([L "4 pack extract papaya calamansi"],
     "Extract Skin Lightening & Brightening Herbal Soap Papaya Calamansi 125g"),
    ([L "assorted eskinol facial scrub"],
     "Eskinol CLASSIC Lightening & Brightening Face Cleanser 225ml"),
    ([L "gluta-c", .anyStar, L "underarm", .anyStar, L "bikini", .anyStar,
      L "whitening", .anyStar, L "gel", .anyStar, L "cream"],
     "Gluta-C Intense Lightening & Brightening Underarm & Bikini Gel 20ml") ]

/-- `apply_special_matching_rule`: first rule whose pattern search-matches the
lowered title. -/
def apply_special_matching_rule (ebay_title : String) : Option String :=
  let tl := lowerL ebay_title.toList
  (SPECIAL_MATCHING_RULES.find? (fun e => reSearch e.1 tl)).map (fun e => e.2)

/-- An element of the list returned by `handle_product_sets`. -/
structure SetItem where
  name : String
  ty : String
deriving DecidableEq

/-- `handle_product_sets`; the Python `None` and the empty list are both
falsy at the single call site, so both are modelled as `[]`. -/
def handle_product_sets (ebay_title : String) : List SetItem :=
  let tl := lowerL ebay_title.toList
  if containsSub "extract".toList tl && containsSub "&".toList tl &&
      containsSub "set".toList tl then
    (if containsSub "soap".toList tl && containsSub "125g".toList tl then
      [⟨"Extract Skin Lightening & Brightening Herbal Soap Papaya Calamansi 125g", "soap"⟩]
     else []) ++
    (if containsSub "lotion".toList tl && containsSub "200ml".toList tl then
      [⟨"Extract Lightening & Brightening Papaya Calamansi Lotion 200ml", "lotion"⟩]
     else [])
  else []

/-- Helper for `removeOrange`: a positive first argument deletes that many
characters (the rest of a matched `\borange\s+` region); `pw` records whether
the preceding character is a word character (for `\b`). -/
def removeOrangeGo : Nat → Bool → List Char → List Char
  | _, _, [] => []
  | s + 1, _, _ :: rest => removeOrangeGo s false rest
  | 0, pw, c :: rest =>
    if !pw && lowerL ((c :: rest).take 6) = "orange".toList &&
        !(((c :: rest).drop 6).takeWhile isSpace).isEmpty then
      removeOrangeGo (5 + (((c :: rest).drop 6).takeWhile isSpace).length) false rest
    else c :: removeOrangeGo 0 (isWordChar c) rest

/-- `re.sub` of the case-insensitive pattern `\borange\s+` with the empty string: delete every
case-insensitive word-boundary `orange` together with the whitespace run
after it. -/
def removeOrange (l : List Char) : List Char :=
  removeOrangeGo 0 false l

/-- `clean_silka_title`. -/
def clean_silka_title (title : String) : String :=
  let tl := lowerL title.toList
  if containsSub "silka".toList tl && containsSub "orange".toList tl then
    String.mk (removeOrange title.toList)
  else title

/-! ## Embedding of `product_catalogue_manager.py` -/

/-- A row of the catalogue DataFrame; `cms_product_code` is `none` for a NaN
code cell. -/
structure Product where
  cms_product_code : Option String
  cms_product_name : String
  retail_price_inc_vat : ℚ
  retail_price_exc_vat : ℚ
  wholesale_price : ℚ
  effective_date : String
deriving DecidableEq

/-- A match dictionary produced by `match_ebay_title_enhanced`; the optional
dictionary keys are modelled as `Option` fields (`none` = key absent, and
`cms_code` is `none` when the code cell placed in the dictionary is NaN). -/
structure MatchResult where
  cms_code : Option String
  cms_name : String
  confidence : ℚ
  wholesale_price : ℚ
  special_handling : Option String
  bundle_quantity : Option Nat
deriving DecidableEq

/-- Length of the common prefix of two character lists. -/
def cplen : List Char → List Char → Nat
  | a :: as, b :: bs => if a = b then cplen as bs + 1 else 0
  | _, _ => 0

/-- `SequenceMatcher.find_longest_match` over the whole ranges: the longest
common substring as `(i, j, k)`, ties broken by the earliest start in the
first string, then the earliest start in the second. -/
def longestMatchL (a b : List Char) : Nat × Nat × Nat :=
  ((List.range a.length).flatMap (fun i =>
      (List.range b.length).map (fun j => (i, j, cplen (a.drop i) (b.drop j))))).foldl
    (fun best c => if best.2.2 < c.2.2 then c else best) (0, 0, 0)

/-- Total size of the Ratcliff/Obershelp matching blocks: recursively take the
longest match and recurse on the pieces to its left and right.  `fuel` bounds
the recursion depth; `a.length + b.length` always suffices since every
recursive call strictly shrinks the combined length. -/
def totalMatched (fuel : Nat) (a b : List Char) : Nat :=
  match fuel with
  | 0 => 0
  | fuel + 1 =>
    let ijk := longestMatchL a b
    if ijk.2.2 = 0 then 0
    else
      totalMatched fuel (a.take ijk.1) (b.take ijk.2.1) + ijk.2.2 +
        totalMatched fuel (a.drop (ijk.1 + ijk.2.2)) (b.drop (ijk.2.1 + ijk.2.2))

/-- `SequenceMatcher(None, a, b).ratio()`: `2 * M / T`, and `1.0` when both
strings are empty. -/
def similarityRatio (a b : List Char) : ℚ :=
  let T := a.length + b.length
  if T = 0 then 1 else 2 * (totalMatched T a b : ℚ) / (T : ℚ)

/-- The suffix words stripped by `clean_title`, in source order.  Each
corresponds to one `re.sub` call deleting the anchored pattern `-\s*WORD\s*$`. -/
def marketSuffixes : List String :=
  ["philippines", "ph", "usa", "uk", "authentic"]

/-- Does the text after a candidate `-` complete a `-\s*word\s*$` match, that
is, whitespace, the word, then only whitespace to the end of the string. -/
def suffixTail (word : String) (rest : List Char) : Bool :=
  let r1 := rest.dropWhile isSpace
  word.toList.isPrefixOf r1 && (r1.drop word.length).all isSpace

/-- `re.sub` deleting `-\s*word\s*$`: delete from the leftmost `-` whose tail
completes the anchored pattern (the match always extends to the end of the
string, so at most one replacement happens). -/
def stripMarket (word : String) : List Char → List Char
  | [] => []
  | c :: rest =>
    if c = '-' && suffixTail word rest then []
    else c :: stripMarket word rest

/-- Is there a `-\s*word\s*$` match anywhere in `l` (used to state when
`stripMarket` is the identity). -/
def hasMarketSuffix (word : String) : List Char → Bool
  | [] => false
  | c :: rest => (c = '-' && suffixTail word rest) || hasMarketSuffix word rest

/-- `ProductCatalogueManager.clean_title`: lowercase, strip the marketplace
suffixes in order, collapse whitespace.  The `re.IGNORECASE` on the
`authentic` pattern is immaterial because the text is already lowercased. -/
def clean_title (title : String) : String :=
  String.mk (collapseWs
    (stripMarket "authentic"
      (stripMarket "uk"
        (stripMarket "usa"
          (stripMarket "ph"
            (stripMarket "philippines" (lowerL title.toList)))))))

/-- The fixed brand list of `extract_brand`, in source order. -/
def brandList : List String :=
  [ "kojie san", "belo", "gluta-c", "glutamax", "silka",
    "safeguard", "extract", "maxi-peel", "skinwhite",
    "goldilocks", "cream silk", "sunsilk", "likas",
    "eskinol", "johnsons", "johnson\x27s", "bench", "ph care",
    "green cross", "seoul white" ]

/-- `extract_brand`: the first listed brand contained in the lowered text,
else the empty string. -/
def extract_brand (text : String) : String :=
  let tl := lowerL text.toList
  (brandList.find? (fun b => containsSub b.toList tl)).getD ""

/-- `calculate_similarity`: SequenceMatcher ratio of the cleaned texts plus
the brand bonus (+0.2) or penalty (-0.3), capped above at 1.0 (the source
does not cap below). -/
def calculate_similarity (text1 text2 : String) : ℚ :=
  let clean1 := clean_title text1
  let clean2 := clean_title text2
  let base := similarityRatio clean1.toList clean2.toList
  let brand1 := extract_brand clean1
  let brand2 := extract_brand clean2
  let adjusted :=
    if brand1 ≠ "" && brand2 ≠ "" then
      if brand1 = brand2 then base + 0.2 else base - 0.3
    else base
  min adjusted 1

/-- The size bonus/penalty pair of the scoring loop. -/
def sizeAdjust (eInfo cInfo : SQInfo) : ℚ × ℚ :=
  if eInfo.size.isSome && cInfo.size.isSome then
    if eInfo.size = cInfo.size then (0.15, 0) else (0, 0.2)
  else (0, 0)

/-- The multipack bonus/penalty pair of the scoring loop, including the
`N+1 free` equivalent-quantity rule read off the catalogue name. -/
def multipackAdjust (eInfo cInfo : SQInfo) (cms_name : String) : ℚ × ℚ :=
  if eInfo.is_multipack && cInfo.is_multipack then
    if eInfo.quantity = cInfo.quantity then (0.2, 0)
    else
      let cms_total :=
        if containsSub "+1".toList (lowerL cms_name.toList) ||
            containsSub "free".toList (lowerL cms_name.toList) then
          match plusOneScan cms_name.toList with
          | some b => some (b + 1)
          | none => cInfo.quantity
        else cInfo.quantity
      if eInfo.quantity = cms_total then (0.15, 0) else (0, 0.3)
  else if eInfo.is_multipack != cInfo.is_multipack then (0, 0.4)
  else (0, 0)

/-- The bulk markers looked for in the catalogue name. -/
def bulkMarkers : List String :=
  ["(1 box)", "(1 case)", "x 48", "x 72", "x 100"]

/-- The combined bonus score of one scoring iteration. -/
def genericBonus (ebay_title : String) (ebay_info cms_info : SQInfo) (cms_name : String) :
    ℚ :=
  let bundleBonus : ℚ :=
    if containsSub "bundle".toList (lowerL ebay_title.toList) && ebay_info.is_multipack &&
        !cms_info.is_multipack then
      0.1
    else 0
  (sizeAdjust ebay_info cms_info).1 + (multipackAdjust ebay_info cms_info cms_name).1 +
    bundleBonus

/-- The combined penalty score of one scoring iteration. -/
def genericPenalty (ebay_title : String) (ebay_info cms_info : SQInfo)
    (ebay_mentions_bulk : Bool) (cms_name : String) : ℚ :=
  let etl := lowerL ebay_title.toList
  let ctl := lowerL cms_name.toList
  let cms_is_bulk := bulkMarkers.any (fun w => containsSub w.toList ctl)
  let bulkPen : ℚ :=
    if cms_is_bulk && !ebay_mentions_bulk then 0.5
    else if !cms_is_bulk && ebay_mentions_bulk then 0.3 else 0
  let bundleCasePen : ℚ :=
    if containsSub "bundle".toList etl && containsSub "(1 case".toList ctl then 0.8 else 0
  let greenPen : ℚ :=
    if containsSub "green".toList ctl && !containsSub "green".toList etl then 0.5
    else if !containsSub "green".toList ctl && containsSub "green".toList etl then 0.3
    else 0
  let pumpPen : ℚ :=
    if containsSub "silka".toList ctl && containsSub "lotion".toList ctl then
      if containsSub "with pump".toList ctl && !containsSub "pump".toList etl then 0.3
      else if !containsSub "with pump".toList ctl && containsSub "pump".toList etl then 0.3
      else 0
    else 0
  let hydroPen : ℚ :=
    if containsSub "hydromoist".toList ctl &&
        !(containsSub "hydromoist".toList etl || containsSub "hydro moist".toList etl) then 0.5
    else 0
  let dreamPen : ℚ :=
    if containsSub "dream white".toList ctl &&
        !(containsSub "dream white".toList etl || containsSub "dreamwhite".toList etl) then 0.5
    else 0
  (sizeAdjust ebay_info cms_info).2 + (multipackAdjust ebay_info cms_info cms_name).2 +
    bulkPen + bundleCasePen + greenPen + pumpPen + dreamPen + hydroPen

/-- `final_score = max(0, min(score + bonus_score - penalty_score, 1.0))`. -/
def genericFinalScore (ebay_title ebay_clean : String) (ebay_info : SQInfo)
    (ebay_mentions_bulk : Bool) (p : Product) : ℚ :=
  let cms_info := extract_size_and_quantity p.cms_product_name
  max 0 (min
    (calculate_similarity ebay_clean p.cms_product_name +
      genericBonus ebay_title ebay_info cms_info p.cms_product_name -
      genericPenalty ebay_title ebay_info cms_info ebay_mentions_bulk p.cms_product_name) 1)

/-- The match dictionary built for a row that passed the threshold, with the
bundle-multiplier tagging. -/
def genericCandidate (ebay_title : String) (score : ℚ) (p : Product) : MatchResult :=
  let etl := lowerL ebay_title.toList
  let bundleQty := if containsSub "bundle".toList etl then packBundleScan etl else none
  { cms_code := some (p.cms_product_code.getD "NO_CODE")
    cms_name := p.cms_product_name
    confidence := score
    wholesale_price := p.wholesale_price
    special_handling := if bundleQty.isSome then some "bundle_multiply" else none
    bundle_quantity := bundleQty }

/-- One iteration of the scoring loop of `match_ebay_title_enhanced` for one
catalogue product: `none` when the product is skipped by the hard type filter
or scores below the threshold, otherwise the match dictionary. -/
def scoreOne (ebay_title : String) (ebay_type : Option String) (ebay_info : SQInfo)
    (ebay_clean : String) (ebay_mentions_bulk : Bool) (threshold : ℚ)
    (p : Product) : Option MatchResult :=
  let cms_type := normalize_product_type p.cms_product_name
  if ebay_type.isSome && cms_type.isSome && ebay_type ≠ cms_type then none
  else if threshold ≤ genericFinalScore ebay_title ebay_clean ebay_info ebay_mentions_bulk p then
    some (genericCandidate ebay_title
      (genericFinalScore ebay_title ebay_clean ebay_info ebay_mentions_bulk p) p)
  else none

/-- Stable insertion preserving the relative order of equal confidences:
walk past strictly greater confidences, insert before the first
less-or-equal one. -/
def insD (x : MatchResult) : List MatchResult → List MatchResult
  | [] => [x]
  | y :: ys => if x.confidence < y.confidence then y :: insD x ys else x :: y :: ys

/-- `matches.sort(key=lambda x: x["confidence"], reverse=True)`: Python
`list.sort` is a stable sort, and a stable descending sort is exactly
insertion keeping earlier equal elements first. -/
def sortD : List MatchResult → List MatchResult
  | [] => []
  | x :: xs => insD x (sortD xs)

/-- The generic scoring stage: score every catalogue row, keep those at or
above the threshold, sort by descending confidence, return the top five. -/
def stageGeneric (products : List Product) (ebay_title : String) (threshold : ℚ) :
    List MatchResult :=
  let ebay_type := normalize_product_type ebay_title
  let ebay_info := extract_size_and_quantity ebay_title
  let ebay_clean := clean_title ebay_title
  let ebay_mentions_bulk :=
    ["box", "case", "bulk", "wholesale"].any
      (fun w => containsSub w.toList (lowerL ebay_title.toList))
  (sortD (products.filterMap
    (scoreOne ebay_title ebay_type ebay_info ebay_clean ebay_mentions_bulk threshold))).take 5

/-- The manual-cost stage: a hit returns a single `MANUAL_ENTRY` candidate,
otherwise fall through to the generic scorer. -/
def stageManual (products : List Product) (ebay_title : String) (threshold : ℚ) :
    List MatchResult :=
  match get_manual_cost ebay_title with
  | some mi => [⟨some "MANUAL_ENTRY", mi.cms_name, 1, mi.cost, some "manual_cost_override", none⟩]
  | none => stageGeneric products ebay_title threshold

/-- The special-rule stage: look the canonical name up by exact equality in
the catalogue; found means a single confidence-1.0 candidate (with no
special-handling key), otherwise fall through. -/
def stageSpecial (products : List Product) (ebay_title : String) (threshold : ℚ) :
    List MatchResult :=
  match apply_special_matching_rule ebay_title with
  | some name =>
    match products.find? (fun p => p.cms_product_name = name) with
    | some p => [⟨p.cms_product_code, p.cms_product_name, 1, p.wholesale_price, none, none⟩]
    | none => stageManual products ebay_title threshold
  | none => stageManual products ebay_title threshold

/-- The assorted-cosmetics stage. -/
def stageAssorted (products : List Product) (ebay_title : String) (threshold : ℚ) :
    List MatchResult :=
  if is_assorted_cosmetics ebay_title then
    [⟨some "ASSORTED_COSMETICS", "Assorted Cosmetics", 1,
      get_flawlessly_u_unit_cost ebay_title, some "flawlessly_u_aggregation", none⟩]
  else stageSpecial products ebay_title threshold

/-- The synthetic title rebuilt for a Kojie San bracket variant. -/
def reconstructKojie (variant : String) : String :=
  "Kojie San Soap " ++ variant ++ " - Skin Brightening & Lightening"

/-- The bracket-selection stage: a Kojie San `[45g]` bracket becomes a manual
cost override; any other Kojie San bracket rewrites the title; a bracket on a
non Kojie San title leaves the original title (with its bracket) in use. -/
def stageBracket (products : List Product) (ebay_title : String) (threshold : ℚ) :
    List MatchResult :=
  let pb := parse_bracket_selection ebay_title
  match pb.2 with
  | none => stageAssorted products ebay_title threshold
  | some variant =>
    if containsSub "kojie san".toList (lowerL pb.1.toList) then
      if variant = "45g" then
        match get_manual_cost "kojie san soap 45g" with
        | some mi =>
          [⟨some "MANUAL_ENTRY", mi.cms_name, 1, mi.cost, some "manual_cost_override", none⟩]
        | none => stageAssorted products (reconstructKojie variant) threshold
      else stageAssorted products (reconstructKojie variant) threshold
    else stageAssorted products ebay_title threshold

/-- The product-set candidates: for each detected set item, one candidate per
catalogue row whose name equals the item name (outer loop over set items,
inner loop over the catalogue). -/
def psCandidates (products : List Product) (items : List SetItem) : List MatchResult :=
  items.flatMap (fun it =>
    (products.filter (fun p => p.cms_product_name = it.name)).map (fun p =>
      ⟨p.cms_product_code, p.cms_product_name, 1, p.wholesale_price, some "product_set", none⟩))

/-- `match_ebay_title_enhanced`: the full override chain followed by the
generic scorer.  A non-empty product-set candidate list returns immediately;
otherwise the title is passed through `clean_silka_title` and the bracket,
assorted-cosmetics, special-rule, manual-cost and generic stages. -/
def match_ebay_title_enhanced (products : List Product) (ebay_title : String)
    (threshold : ℚ) : List MatchResult :=
  let psm := psCandidates products (handle_product_sets ebay_title)
  if psm.isEmpty then
    stageBracket products (clean_silka_title ebay_title) threshold
  else psm

/-! ### Catalogue loading and price updates -/

/-- The catalogue DataFrame: its column list and its typed rows. -/
structure CatalogueDF where
  columns : List String
  rows : List Product
deriving DecidableEq

/-- The expected catalogue columns. -/
def expectedColumns : List String :=
  [ "cms_product_code", "cms_product_name",
    "retail_price_inc_vat", "retail_price_exc_vat",
    "wholesale_price", "effective_date" ]

/-- A log record: level and message. -/
inductive LogLevel
  | info
  | error
deriving DecidableEq

/-- A logging call, `logger.info` or `logger.error`, with its message. -/
structure LogEntry where
  level : LogLevel
  msg : String
deriving DecidableEq

/-- `load_catalogue`: the file system is modelled as `Option CatalogueDF`
(`none` = the catalogue file does not exist).  A missing file logs an error
and substitutes an empty DataFrame with the expected columns. -/
def load_catalogue (file : Option CatalogueDF) (catalogue_file : String) :
    CatalogueDF × List LogEntry :=
  match file with
  | some df =>
    (df, [⟨.info, "Loaded " ++ toString df.rows.length ++ " products from " ++ catalogue_file⟩])
  | none =>
    (⟨expectedColumns, []⟩, [⟨.error, "Catalogue file " ++ catalogue_file ++ " not found"⟩])

/-- An entry of the `price_history` list. -/
structure PriceEntry where
  cms_code : String
  old_price : ℚ
  new_price : ℚ
  changed_date : String
deriving DecidableEq

/-- The mutable state of a `ProductCatalogueManager` together with the file it
persists to: the in-memory DataFrame, the in-memory price history, and the
contents of the catalogue CSV on disk. -/
structure ManagerState where
  df : CatalogueDF
  price_history : List PriceEntry
  file : Option CatalogueDF
deriving DecidableEq

/-- The Python return value of `update_price`: the function has no `return`
statement on either path, so the caller receives `None` in all cases. -/
inductive PyReturn
  | none
deriving DecidableEq

/-- The observable outcome of one `update_price` call. -/
structure UpdateOutcome where
  state : ManagerState
  logs : List LogEntry
  ret : PyReturn
deriving DecidableEq

/-- The row mask `products_df["cms_product_code"] == cms_code` (a NaN code
cell never equals a string). -/
def codeMask (cms_code : String) (p : Product) : Bool :=
  p.cms_product_code = some cms_code

/-- `update_price`: `today` stands for `datetime.now().strftime("%Y-%m-%d")`,
used when no effective date is passed.  A matched mask appends one history
entry (using the first masked row for the old price), overwrites the price
and effective date of every masked row, and writes the DataFrame back to the
file; an empty mask only logs an error. -/
def update_price (st : ManagerState) (cms_code : String) (new_price : ℚ)
    (effective_date : Option String) (today : String) : UpdateOutcome :=
  let eff := effective_date.getD today
  match st.df.rows.find? (codeMask cms_code) with
  | some p0 =>
    let newRows := st.df.rows.map (fun p =>
      if codeMask cms_code p then
        { p with wholesale_price := new_price, effective_date := eff }
      else p)
    let newDf : CatalogueDF := ⟨st.df.columns, newRows⟩
    { state :=
        { df := newDf
          price_history :=
            st.price_history ++ [⟨cms_code, p0.wholesale_price, new_price, eff⟩]
          file := some newDf }
      logs := [⟨.info, "Updated price for " ++ cms_code⟩]
      ret := .none }
  | none =>
    { state := st
      logs := [⟨.error, "Product code " ++ cms_code ++ " not found"⟩]
      ret := .none }

/-! ## Derived notions used to state the claims -/

/-- Does the bracket stage return a manual-cost result directly (a Kojie San
title with the `[45g]` bracket whose manual lookup succeeds)?  `t` is the
title after `clean_silka_title`. -/
def bracketManualFires (t : String) : Bool :=
  match (parse_bracket_selection t).2 with
  | none => false
  | some variant =>
    containsSub "kojie san".toList (lowerL (parse_bracket_selection t).1.toList) &&
      variant = "45g" && (get_manual_cost "kojie san soap 45g").isSome

/-- The title in effect after the bracket stage when it does not return
directly: a Kojie San bracket rewrites the title, any other title (bracketed
or not) stays as it was. -/
def effectiveTitle (t : String) : String :=
  match (parse_bracket_selection t).2 with
  | none => t
  | some variant =>
    if containsSub "kojie san".toList (lowerL (parse_bracket_selection t).1.toList) then
      reconstructKojie variant
    else t

/-- Boolean form of the hard type filter between a title and a catalogue
name: false exactly when both product types are detected and differ. -/
def typeCompat (title name : String) : Bool :=
  match normalize_product_type title, normalize_product_type name with
  | some a, some b => a = b
  | _, _ => true

/-- There is an `x` in the character list followed by optional whitespace and
at least one digit (the shape matched by the quantity regex `x\s*(\d+)`). -/
def XNumWitness (cs : List Char) : Prop :=
  ∃ l1 l2, cs = l1 ++ 'x' :: l2 ∧
    ∃ d, (l2.dropWhile isSpace).head? = some d ∧ d.isDigit = true

/-! ## Concrete data used by witnesses and counterexamples -/

/-- A catalogue row for the canonical Gluta-C facial toner. -/
def tonerProd : Product :=
  ⟨some "GC-TONER", "Gluta-C Skin Lightening & Brightening Facial Toner 100ml",
   10, 8, 5, "2025-01-01"⟩

/-- Catalogue row constructor for short examples. -/
def mkProd (c : String) (n : String) : Product :=
  ⟨some c, n, 10, 8, 5, "2025-01-01"⟩

/-- The canonical Extract soap name used by `handle_product_sets`. -/
def extractSoapName : String :=
  "Extract Skin Lightening & Brightening Herbal Soap Papaya Calamansi 125g"

/-- The canonical Extract lotion name used by `handle_product_sets`. -/
def extractLotionName : String :=
  "Extract Lightening & Brightening Papaya Calamansi Lotion 200ml"

/-- A six-row catalogue whose first row is the Extract lotion and whose other
five rows all carry the Extract soap name (codes distinct, names repeated). -/
def dupCatalogue : List Product :=
  [mkProd "L1" extractLotionName, mkProd "S1" extractSoapName, mkProd "S2" extractSoapName,
   mkProd "S3" extractSoapName, mkProd "S4" extractSoapName, mkProd "S5" extractSoapName]

/-- A two-row manager state with distinct codes, persisted to its file. -/
def twoRowState : ManagerState :=
  ⟨⟨expectedColumns, [mkProd "A" "Prod A", mkProd "B" "Prod B"]⟩, [],
   some ⟨expectedColumns, [mkProd "A" "Prod A", mkProd "B" "Prod B"]⟩⟩

/-- The assorted-cosmetics candidate for the plain title `"flawlessly u"`. -/
def assortedCandFlawlessly : MatchResult :=
  ⟨some "ASSORTED_COSMETICS", "Assorted Cosmetics", 1,
   get_flawlessly_u_unit_cost "flawlessly u", some "flawlessly_u_aggregation", none⟩

/-! ## Supporting lemmas: characters -/

theorem toNat_ofNat_valid (n : Nat) (h : n < 0xd800) : (Char.ofNat n).toNat = n := by
  have hv : n.isValidChar := Or.inl h
  rw [Char.ofNat, dif_pos hv]
  simp [Char.ofNatAux, Char.toNat, UInt32.ofNat', UInt32.toNat, BitVec.toNat_ofNatLt]

/-- `Char.toLower` is idempotent: lowering an uppercase ASCII letter lands
outside the uppercase range, and every other character is fixed. -/
theorem toLower_idem (c : Char) : c.toLower.toLower = c.toLower := by
  simp only [Char.toLower]
  by_cases h : c.toNat ≥ 65 ∧ c.toNat ≤ 90
  · rw [if_pos h]
    have h2 : (Char.ofNat (c.toNat + 32)).toNat = c.toNat + 32 :=
      toNat_ofNat_valid _ (by omega)
    rw [if_neg (by omega)]
  · rw [if_neg h, if_neg h]

/-! ## Supporting lemmas: lists and the stable sort -/

theorem map_id_of_fixed {α : Type} {l : List α} {f : α → α} (h : ∀ c ∈ l, f c = c) :
    l.map f = l := by
  induction l with
  | nil => rfl
  | cons a t ih =>
    simp only [List.map_cons, List.cons.injEq]
    exact ⟨h a (by simp), ih (fun c hc => h c (by simp [hc]))⟩

theorem takeWhile_all {α : Type} {p : α → Bool} {l : List α} (h : ∀ c ∈ l, p c = true) :
    l.takeWhile p = l := by
  induction l with
  | nil => rfl
  | cons a t ih =>
    simp only [List.takeWhile_cons, h a (by simp), if_true]
    simp only [List.cons.injEq, true_and]
    exact ih (fun c hc => h c (by simp [hc]))

theorem dropWhile_all {α : Type} {p : α → Bool} {l : List α} (h : ∀ c ∈ l, p c = true) :
    l.dropWhile p = [] := by
  induction l with
  | nil => rfl
  | cons a t ih =>
    simp only [List.dropWhile_cons, h a (by simp), if_true]
    exact ih (fun c hc => h c (by simp [hc]))

theorem mem_insD {x m : MatchResult} {l : List MatchResult} :
    m ∈ insD x l ↔ m = x ∨ m ∈ l := by
  induction l with
  | nil => simp [insD]
  | cons y ys ih =>
    simp only [insD]
    split
    · simp only [List.mem_cons, ih]
      tauto
    · simp [List.mem_cons]

theorem mem_sortD {m : MatchResult} {l : List MatchResult} : m ∈ sortD l ↔ m ∈ l := by
  induction l with
  | nil => simp [sortD]
  | cons x xs ih => simp [sortD, mem_insD, ih]

theorem pairwise_insD {x : MatchResult} {l : List MatchResult}
    (h : l.Pairwise (fun a b => b.confidence ≤ a.confidence)) :
    (insD x l).Pairwise (fun a b => b.confidence ≤ a.confidence) := by
  induction l with
  | nil => simp [insD]
  | cons y ys ih =>
    rw [List.pairwise_cons] at h
    simp only [insD]
    split
    · next hlt =>
      rw [List.pairwise_cons]
      refine ⟨?_, ih h.2⟩
      intro a ha
      rcases mem_insD.mp ha with rfl | ha
      · exact le_of_lt hlt
      · exact h.1 a ha
    · next hge =>
      rw [List.pairwise_cons]
      refine ⟨?_, List.pairwise_cons.mpr h⟩
      intro a ha
      rcases List.mem_cons.mp ha with rfl | ha
      · exact not_lt.mp hge
      · exact le_trans (h.1 a ha) (not_lt.mp hge)

theorem sortD_pairwise (l : List MatchResult) :
    (sortD l).Pairwise (fun a b => b.confidence ≤ a.confidence) := by
  induction l with
  | nil => simp [sortD]
  | cons x xs ih => exact pairwise_insD ih

theorem filter_insD (c : ℚ) (x : MatchResult) (l : List MatchResult) :
    (insD x l).filter (fun m => decide (m.confidence = c)) =
      if x.confidence = c then x :: l.filter (fun m => decide (m.confidence = c))
      else l.filter (fun m => decide (m.confidence = c)) := by
  induction l with
  | nil =>
    simp only [insD, List.filter_cons, List.filter_nil]
    by_cases hx : x.confidence = c
    · simp [hx]
    · simp [hx]
  | cons y ys ih =>
    simp only [insD]
    split
    · next hlt =>
      by_cases hx : x.confidence = c
      · have hy : ¬ y.confidence = c := by
          rw [hx] at hlt
          exact ne_of_gt hlt
        simp only [hx, if_true] at ih ⊢
        simp [List.filter_cons, hy, ih]
      · simp only [hx, if_false] at ih ⊢
        simp [List.filter_cons, ih]
    · by_cases hx : x.confidence = c
      · simp [List.filter_cons, hx]
      · simp [List.filter_cons, hx]

theorem sortD_filter (c : ℚ) (l : List MatchResult) :
    (sortD l).filter (fun m => decide (m.confidence = c)) =
      l.filter (fun m => decide (m.confidence = c)) := by
  induction l with
  | nil => simp [sortD]
  | cons x xs ih =>
    simp only [sortD, filter_insD, ih]
    by_cases hx : x.confidence = c
    · simp [List.filter_cons, hx]
    · simp [List.filter_cons, hx]

/-- A list whose members all have confidence 1 is sorted descending. -/
theorem pairwise_of_all_one {l : List MatchResult} (h : ∀ m ∈ l, m.confidence = 1) :
    l.Pairwise (fun a b => b.confidence ≤ a.confidence) := by
  induction l with
  | nil => simp
  | cons x xs ih =>
    rw [List.pairwise_cons]
    refine ⟨?_, ih (fun m hm => h m (by simp [hm]))⟩
    intro a ha
    rw [h a (by simp [ha]), h x (by simp)]

/-! ## Supporting lemmas: the scoring loop and the stage chain -/

/-- Every product-set candidate has confidence exactly 1. -/
theorem conf_psCandidates {products : List Product} {items : List SetItem}
    {m : MatchResult} (h : m ∈ psCandidates products items) : m.confidence = 1 := by
  simp only [psCandidates, List.mem_flatMap, List.mem_map] at h
  obtain ⟨it, _, p, _, rfl⟩ := h
  rfl

/-- A successful scoring iteration yields the clamped final score, hence a
confidence in `[0, 1]`. -/
theorem scoreOne_conf_bounds {ebay_title : String} {ebay_type : Option String}
    {ebay_info : SQInfo} {ebay_clean : String} {ebay_mentions_bulk : Bool}
    {threshold : ℚ} {p : Product} {m : MatchResult}
    (h : scoreOne ebay_title ebay_type ebay_info ebay_clean ebay_mentions_bulk threshold p
        = some m) :
    0 ≤ m.confidence ∧ m.confidence ≤ 1 := by
  simp only [scoreOne] at h
  split at h
  · exact absurd h (by simp)
  · split at h
    · rw [Option.some.injEq] at h
      subst h
      simp only [genericCandidate, genericFinalScore]
      constructor
      · exact le_max_left 0 _
      · exact max_le zero_le_one (min_le_right _ 1)
    · exact absurd h (by simp)

/-- A successful scoring iteration reports the catalogue row name. -/
theorem scoreOne_name {ebay_title : String} {ebay_type : Option String}
    {ebay_info : SQInfo} {ebay_clean : String} {ebay_mentions_bulk : Bool}
    {threshold : ℚ} {p : Product} {m : MatchResult}
    (h : scoreOne ebay_title ebay_type ebay_info ebay_clean ebay_mentions_bulk threshold p
        = some m) :
    m.cms_name = p.cms_product_name := by
  simp only [scoreOne] at h
  split at h
  · exact absurd h (by simp)
  · split at h
    · rw [Option.some.injEq] at h
      subst h
      rfl
    · exact absurd h (by simp)

theorem scoreOne_conf_eq {ebay_title : String} {ebay_type : Option String}
    {ebay_info : SQInfo} {ebay_clean : String} {ebay_mentions_bulk : Bool}
    {threshold : ℚ} {p : Product} {m : MatchResult}
    (h : scoreOne ebay_title ebay_type ebay_info ebay_clean ebay_mentions_bulk threshold p
        = some m) :
    m.confidence = genericFinalScore ebay_title ebay_clean ebay_info ebay_mentions_bulk p := by
  simp only [scoreOne] at h
  split at h
  · exact absurd h (by simp)
  · split at h
    · rw [Option.some.injEq] at h
      subst h
      rfl
    · exact absurd h (by simp)

/-- The hard type filter of the scoring loop: detected and different types
skip the row outright. -/
theorem scoreOne_skips_type_mismatch {ebay_title : String} {a b : String}
    {ebay_info : SQInfo} {ebay_clean : String} {ebay_mentions_bulk : Bool}
    {threshold : ℚ} {p : Product}
    (hA : normalize_product_type p.cms_product_name = some b) (hNe : a ≠ b) :
    scoreOne ebay_title (some a) ebay_info ebay_clean ebay_mentions_bulk threshold p
      = none := by
  have hs : (some a : Option String) ≠ some b := by simp [hNe]
  simp [scoreOne, hA, hs]

/-- Membership in the generic stage comes from a successful scoring
iteration on some catalogue row. -/
theorem mem_stageGeneric {products : List Product} {title : String} {threshold : ℚ}
    {m : MatchResult} (h : m ∈ stageGeneric products title threshold) :
    ∃ p ∈ products,
      scoreOne title (normalize_product_type title) (extract_size_and_quantity title)
        (clean_title title)
        (["box", "case", "bulk", "wholesale"].any
          (fun w => containsSub w.toList (lowerL title.toList))) threshold p = some m := by
  simp only [stageGeneric] at h
  have h2 := mem_sortD.mp (List.mem_of_mem_take h)
  exact List.mem_filterMap.mp h2

theorem length_stageGeneric_le (products : List Product) (title : String) (threshold : ℚ) :
    (stageGeneric products title threshold).length ≤ 5 := by
  simp only [stageGeneric]
  exact le_trans (Nat.le_of_eq (List.length_take _ _)) (min_le_left _ _)

/-- The generic stage is the sorted-and-truncated list of scored rows. -/
theorem stageGeneric_eq (products : List Product) (title : String) (threshold : ℚ) :
    stageGeneric products title threshold =
      (sortD (products.filterMap
        (scoreOne title (normalize_product_type title) (extract_size_and_quantity title)
          (clean_title title)
          (["box", "case", "bulk", "wholesale"].any
            (fun w => containsSub w.toList (lowerL title.toList))) threshold))).take 5 := rfl

/-- With no product-set candidates the matcher runs the Silka-cleaned title
through the bracket stage. -/
theorem match_eq_stageBracket {products : List Product} {title : String} {threshold : ℚ}
    (h : psCandidates products (handle_product_sets title) = []) :
    match_ebay_title_enhanced products title threshold =
      stageBracket products (clean_silka_title title) threshold := by
  simp [match_ebay_title_enhanced, h]

/-- When the Kojie San 45g manual override does not fire, the bracket stage
hands the effective title to the assorted-cosmetics stage. -/
theorem stageBracket_eq {products : List Product} {t : String} {threshold : ℚ}
    (h : bracketManualFires t = false) :
    stageBracket products t threshold =
      stageAssorted products (effectiveTitle t) threshold := by
  simp only [bracketManualFires] at h
  simp only [stageBracket, effectiveTitle]
  cases hb : (parse_bracket_selection t).2 with
  | none => rfl
  | some v =>
    rw [hb] at h
    by_cases hk : containsSub "kojie san".toList (lowerL (parse_bracket_selection t).1.toList)
    · simp only [hk, if_true]
      by_cases h45 : v = "45g"
      · subst h45
        cases hm : get_manual_cost "kojie san soap 45g" with
        | none => rfl
        | some mi =>
          rw [hm, hk] at h
          simp at h
      · simp only [h45, if_false]
    · simp only [hk, if_false]
      rw [Bool.not_eq_true] at hk
      simp [hk]

theorem stageAssorted_pos {products : List Product} {t : String} {threshold : ℚ}
    (h : is_assorted_cosmetics t = true) :
    stageAssorted products t threshold =
      [⟨some "ASSORTED_COSMETICS", "Assorted Cosmetics", 1,
        get_flawlessly_u_unit_cost t, some "flawlessly_u_aggregation", none⟩] := by
  simp [stageAssorted, h]

theorem stageAssorted_neg {products : List Product} {t : String} {threshold : ℚ}
    (h : is_assorted_cosmetics t = false) :
    stageAssorted products t threshold = stageSpecial products t threshold := by
  simp [stageAssorted, h]

theorem stageSpecial_hit {products : List Product} {t : String} {threshold : ℚ}
    {name : String} {p : Product}
    (h1 : apply_special_matching_rule t = some name)
    (h2 : products.find? (fun q => q.cms_product_name = name) = some p) :
    stageSpecial products t threshold =
      [⟨p.cms_product_code, p.cms_product_name, 1, p.wholesale_price, none, none⟩] := by
  simp [stageSpecial, h1, h2]

theorem stageSpecial_nomatch {products : List Product} {t : String} {threshold : ℚ}
    {name : String}
    (h1 : apply_special_matching_rule t = some name)
    (h2 : products.find? (fun q => q.cms_product_name = name) = none) :
    stageSpecial products t threshold = stageManual products t threshold := by
  simp [stageSpecial, h1, h2]

theorem stageSpecial_none {products : List Product} {t : String} {threshold : ℚ}
    (h : apply_special_matching_rule t = none) :
    stageSpecial products t threshold = stageManual products t threshold := by
  simp [stageSpecial, h]

theorem stageManual_hit {products : List Product} {t : String} {threshold : ℚ}
    {mi : CostInfo} (h : get_manual_cost t = some mi) :
    stageManual products t threshold =
      [⟨some "MANUAL_ENTRY", mi.cms_name, 1, mi.cost, some "manual_cost_override", none⟩] := by
  simp [stageManual, h]

theorem stageManual_none {products : List Product} {t : String} {threshold : ℚ}
    (h : get_manual_cost t = none) :
    stageManual products t threshold = stageGeneric products t threshold := by
  simp [stageManual, h]

/-- When the Kojie San 45g override fires, the bracket stage returns the
manual-cost candidate directly. -/
theorem stageBracket_fires {products : List Product} {t : String} {threshold : ℚ}
    {mi : CostInfo} (h : bracketManualFires t = true)
    (hm : get_manual_cost "kojie san soap 45g" = some mi) :
    stageBracket products t threshold =
      [⟨some "MANUAL_ENTRY", mi.cms_name, 1, mi.cost, some "manual_cost_override", none⟩] := by
  simp only [bracketManualFires] at h
  cases hb : (parse_bracket_selection t).2 with
  | none => rw [hb] at h; exact absurd h (by simp)
  | some v =>
    rw [hb] at h
    simp only [Bool.and_eq_true, decide_eq_true_eq] at h
    obtain ⟨⟨hk, hv⟩, _⟩ := h
    subst hv
    simp only [stageBracket, hb, hk, if_true, hm]

/-- Every result of the manual stage has confidence in `[0, 1]`. -/
theorem conf_stageManual {products : List Product} {t : String} {threshold : ℚ}
    {m : MatchResult} (h : m ∈ stageManual products t threshold) :
    0 ≤ m.confidence ∧ m.confidence ≤ 1 := by
  cases hm : get_manual_cost t with
  | none =>
    rw [stageManual_none hm] at h
    obtain ⟨p, _, hs⟩ := mem_stageGeneric h
    exact scoreOne_conf_bounds hs
  | some mi =>
    rw [stageManual_hit hm] at h
    rw [List.mem_singleton] at h
    subst h
    exact ⟨by norm_num, by norm_num⟩

theorem conf_stageSpecial {products : List Product} {t : String} {threshold : ℚ}
    {m : MatchResult} (h : m ∈ stageSpecial products t threshold) :
    0 ≤ m.confidence ∧ m.confidence ≤ 1 := by
  cases ha : apply_special_matching_rule t with
  | none =>
    rw [stageSpecial_none ha] at h
    exact conf_stageManual h
  | some name =>
    cases hf : products.find? (fun q => q.cms_product_name = name) with
    | none =>
      rw [stageSpecial_nomatch ha hf] at h
      exact conf_stageManual h
    | some p =>
      rw [stageSpecial_hit ha hf] at h
      rw [List.mem_singleton] at h
      subst h
      exact ⟨by norm_num, by norm_num⟩

theorem conf_stageAssorted {products : List Product} {t : String} {threshold : ℚ}
    {m : MatchResult} (h : m ∈ stageAssorted products t threshold) :
    0 ≤ m.confidence ∧ m.confidence ≤ 1 := by
  cases ha : is_assorted_cosmetics t with
  | false =>
    rw [stageAssorted_neg ha] at h
    exact conf_stageSpecial h
  | true =>
    rw [stageAssorted_pos ha] at h
    rw [List.mem_singleton] at h
    subst h
    exact ⟨by norm_num, by norm_num⟩

theorem conf_stageBracket {products : List Product} {t : String} {threshold : ℚ}
    {m : MatchResult} (h : m ∈ stageBracket products t threshold) :
    0 ≤ m.confidence ∧ m.confidence ≤ 1 := by
  cases hb : bracketManualFires t with
  | false =>
    rw [stageBracket_eq hb] at h
    exact conf_stageAssorted h
  | true =>
    rw [stageBracket_fires hb rfl] at h
    rw [List.mem_singleton] at h
    subst h
    exact ⟨by norm_num, by norm_num⟩

/-- Every branch after the product-set stage returns at most five
candidates. -/
theorem length_stageManual_le (products : List Product) (t : String) (threshold : ℚ) :
    (stageManual products t threshold).length ≤ 5 := by
  cases hm : get_manual_cost t with
  | none => rw [stageManual_none hm]; exact length_stageGeneric_le products t threshold
  | some mi => rw [stageManual_hit hm]; norm_num

theorem length_stageSpecial_le (products : List Product) (t : String) (threshold : ℚ) :
    (stageSpecial products t threshold).length ≤ 5 := by
  cases ha : apply_special_matching_rule t with
  | none => rw [stageSpecial_none ha]; exact length_stageManual_le products t threshold
  | some name =>
    cases hf : products.find? (fun q => q.cms_product_name = name) with
    | none => rw [stageSpecial_nomatch ha hf]; exact length_stageManual_le products t threshold
    | some p => rw [stageSpecial_hit ha hf]; norm_num

theorem length_stageAssorted_le (products : List Product) (t : String) (threshold : ℚ) :
    (stageAssorted products t threshold).length ≤ 5 := by
  cases ha : is_assorted_cosmetics t with
  | false => rw [stageAssorted_neg ha]; exact length_stageSpecial_le products t threshold
  | true => rw [stageAssorted_pos ha]; norm_num

theorem length_stageBracket_le (products : List Product) (t : String) (threshold : ℚ) :
    (stageBracket products t threshold).length ≤ 5 := by
  cases hb : bracketManualFires t with
  | false => rw [stageBracket_eq hb]; exact length_stageAssorted_le products _ threshold
  | true => rw [stageBracket_fires hb rfl]; norm_num

/-! ## Supporting lemmas: `clean_title` idempotence machinery -/

theorem mem_stripMarket {w : String} {l : List Char} {c : Char}
    (h : c ∈ stripMarket w l) : c ∈ l := by
  induction l with
  | nil => simp [stripMarket] at h
  | cons a t ih =>
    simp only [stripMarket] at h
    split at h
    · exact absurd h (by simp)
    · rcases List.mem_cons.mp h with rfl | h
      · simp
      · simp [ih h]

theorem stripMarket_id {w : String} {l : List Char}
    (h : hasMarketSuffix w l = false) : stripMarket w l = l := by
  induction l with
  | nil => rfl
  | cons a t ih =>
    simp only [hasMarketSuffix, Bool.or_eq_false_iff] at h
    simp [stripMarket, h.1, ih h.2]

theorem takeWhile_append_of_all {α : Type} {p : α → Bool} {w r : List α} {x : α}
    (hw : ∀ c ∈ w, p c = true) (hx : p x = false) :
    (w ++ x :: r).takeWhile p = w := by
  induction w with
  | nil => simp [List.takeWhile_cons, hx]
  | cons a t ih =>
    simp only [List.cons_append, List.takeWhile_cons, hw a (by simp), if_true]
    rw [ih (fun c hc => hw c (by simp [hc]))]

theorem dropWhile_append_of_all {α : Type} {p : α → Bool} {w r : List α} {x : α}
    (hw : ∀ c ∈ w, p c = true) (hx : p x = false) :
    (w ++ x :: r).dropWhile p = x :: r := by
  induction w with
  | nil => simp [List.dropWhile_cons, hx]
  | cons a t ih =>
    simp only [List.cons_append, List.dropWhile_cons, hw a (by simp), if_true]
    exact ih (fun c hc => hw c (by simp [hc]))

/-- Every word produced by `splitW` is non-empty and free of whitespace. -/
theorem splitW_sound {l : List Char} :
    ∀ w ∈ splitW l, w ≠ [] ∧ ∀ c ∈ w, isSpace c = false := by
  induction l using splitW.induct with
  | case1 => simp [splitW]
  | case2 c rest hsp ih =>
    simp only [splitW, hsp, if_true]
    exact ih
  | case3 c rest hsp ih =>
    simp only [splitW, hsp, if_false]
    intro w hw
    rcases List.mem_cons.mp hw with rfl | hw
    · refine ⟨by simp, ?_⟩
      intro d hd
      rcases List.mem_cons.mp hd with rfl | hd
      · simpa using hsp
      · have := List.mem_takeWhile_imp hd
        simpa using this
    · exact ih w hw

/-- Every character of a `splitW` word comes from the original list. -/
theorem mem_splitW {l : List Char} {w : List Char} {c : Char}
    (hw : w ∈ splitW l) (hc : c ∈ w) : c ∈ l := by
  induction l using splitW.induct with
  | case1 => simp [splitW] at hw
  | case2 a rest hsp ih =>
    simp only [splitW, hsp, if_true] at hw
    exact List.mem_cons_of_mem a (ih hw)
  | case3 a rest hsp ih =>
    simp only [splitW, hsp, if_false] at hw
    rcases List.mem_cons.mp hw with rfl | hw
    · rcases List.mem_cons.mp hc with rfl | hc
      · simp
      · exact List.mem_cons_of_mem a ((List.takeWhile_sublist _).subset hc)
    · exact List.mem_cons_of_mem a ((List.dropWhile_sublist _).subset (ih hw))

theorem mem_joinW {ws : List (List Char)} {c : Char} (h : c ∈ joinW ws) :
    c = ' ' ∨ ∃ w ∈ ws, c ∈ w := by
  induction ws with
  | nil => simp [joinW] at h
  | cons w ws ih =>
    cases ws with
    | nil =>
      simp only [joinW] at h
      exact Or.inr ⟨w, by simp, h⟩
    | cons w2 ws2 =>
      simp only [joinW, List.mem_append, List.mem_cons] at h
      rcases h with h | h | h
      · exact Or.inr ⟨w, by simp, h⟩
      · exact Or.inl h
      · rcases ih h with h | ⟨u, hu, hc⟩
        · exact Or.inl h
        · exact Or.inr ⟨u, by simp [hu], hc⟩

theorem mem_collapseWs {l : List Char} {c : Char} (h : c ∈ collapseWs l) :
    c = ' ' ∨ c ∈ l := by
  rcases mem_joinW h with h | ⟨w, hw, hc⟩
  · exact Or.inl h
  · exact Or.inr (mem_splitW hw hc)

theorem splitW_word_only {w : List Char} (hne : w ≠ [])
    (hns : ∀ c ∈ w, isSpace c = false) : splitW w = [w] := by
  cases w with
  | nil => exact absurd rfl hne
  | cons a t =>
    rw [show splitW (a :: t) =
        (a :: t.takeWhile (fun d => !isSpace d)) :: splitW (t.dropWhile (fun d => !isSpace d))
      by simp [splitW, hns a (by simp)]]
    rw [takeWhile_all (fun c hc => by simp [hns c (by simp [hc])]),
        dropWhile_all (fun c hc => by simp [hns c (by simp [hc])])]
    simp [splitW]

theorem splitW_word_append {w rest : List Char} (hne : w ≠ [])
    (hns : ∀ c ∈ w, isSpace c = false) :
    splitW (w ++ ' ' :: rest) = w :: splitW rest := by
  cases w with
  | nil => exact absurd rfl hne
  | cons a t =>
    rw [List.cons_append]
    rw [show splitW (a :: (t ++ ' ' :: rest)) =
        (a :: (t ++ ' ' :: rest).takeWhile (fun d => !isSpace d)) ::
          splitW ((t ++ ' ' :: rest).dropWhile (fun d => !isSpace d))
      by simp [splitW, hns a (by simp)]]
    rw [takeWhile_append_of_all (fun c hc => by simp [hns c (by simp [hc])]) (by simp [isSpace]),
        dropWhile_append_of_all (fun c hc => by simp [hns c (by simp [hc])]) (by simp [isSpace])]
    simp [splitW, isSpace]

theorem splitW_joinW {ws : List (List Char)}
    (h : ∀ w ∈ ws, w ≠ [] ∧ ∀ c ∈ w, isSpace c = false) : splitW (joinW ws) = ws := by
  induction ws with
  | nil => simp [joinW, splitW]
  | cons w ws ih =>
    cases ws with
    | nil =>
      simp only [joinW]
      exact splitW_word_only (h w (by simp)).1 (h w (by simp)).2
    | cons w2 ws2 =>
      show splitW (w ++ ' ' :: joinW (w2 :: ws2)) = w :: w2 :: ws2
      rw [splitW_word_append (h w (by simp)).1 (h w (by simp)).2]
      rw [ih (fun u hu => h u (List.mem_cons_of_mem w hu))]

theorem collapseWs_idem (l : List Char) : collapseWs (collapseWs l) = collapseWs l := by
  simp only [collapseWs]
  rw [splitW_joinW splitW_sound]

/-- Every character of a cleaned title is fixed by lowering: it is either a
separator space or the image of `Char.toLower`. -/
theorem chars_clean_title_lower (s : String) : ∀ c ∈ (clean_title s).toList, c.toLower = c := by
  intro c hc
  have hc2 : c ∈ collapseWs (stripMarket "authentic" (stripMarket "uk" (stripMarket "usa"
      (stripMarket "ph" (stripMarket "philippines" (lowerL s.toList)))))) := hc
  rcases mem_collapseWs hc2 with rfl | hc3
  · decide
  · have hc4 := mem_stripMarket (mem_stripMarket (mem_stripMarket (mem_stripMarket
      (mem_stripMarket hc3))))
    simp only [lowerL, List.mem_map] at hc4
    obtain ⟨d, _, rfl⟩ := hc4
    exact toLower_idem d

/-! ## Supporting lemmas: remaining small facts -/

theorem psCandidates_nil (items : List SetItem) : psCandidates [] items = [] := by
  induction items with
  | nil => rfl
  | cons it rest ih =>
    simp only [psCandidates, List.flatMap_cons, List.filter_nil, List.map_nil, List.nil_append]
    exact ih

theorem stageSpecial_nil (t : String) (threshold : ℚ) :
    stageSpecial [] t threshold = stageManual [] t threshold := by
  cases h : apply_special_matching_rule t with
  | none => exact stageSpecial_none h
  | some name => exact stageSpecial_nomatch h rfl

theorem stageGeneric_nil (t : String) (threshold : ℚ) : stageGeneric [] t threshold = [] := by
  simp [stageGeneric, sortD]

theorem pairwise_stageGeneric (products : List Product) (t : String) (threshold : ℚ) :
    (stageGeneric products t threshold).Pairwise (fun a b => b.confidence ≤ a.confidence) := by
  rw [stageGeneric_eq]
  exact List.Pairwise.sublist (List.take_sublist _ _) (sortD_pairwise _)

theorem pairwise_stageManual (products : List Product) (t : String) (threshold : ℚ) :
    (stageManual products t threshold).Pairwise (fun a b => b.confidence ≤ a.confidence) := by
  cases hm : get_manual_cost t with
  | none => rw [stageManual_none hm]; exact pairwise_stageGeneric products t threshold
  | some mi => rw [stageManual_hit hm]; simp

theorem pairwise_stageSpecial (products : List Product) (t : String) (threshold : ℚ) :
    (stageSpecial products t threshold).Pairwise (fun a b => b.confidence ≤ a.confidence) := by
  cases ha : apply_special_matching_rule t with
  | none => rw [stageSpecial_none ha]; exact pairwise_stageManual products t threshold
  | some name =>
    cases hf : products.find? (fun q => q.cms_product_name = name) with
    | none => rw [stageSpecial_nomatch ha hf]; exact pairwise_stageManual products t threshold
    | some p => rw [stageSpecial_hit ha hf]; simp

theorem pairwise_stageAssorted (products : List Product) (t : String) (threshold : ℚ) :
    (stageAssorted products t threshold).Pairwise (fun a b => b.confidence ≤ a.confidence) := by
  cases ha : is_assorted_cosmetics t with
  | false => rw [stageAssorted_neg ha]; exact pairwise_stageSpecial products t threshold
  | true => rw [stageAssorted_pos ha]; simp

theorem pairwise_stageBracket (products : List Product) (t : String) (threshold : ℚ) :
    (stageBracket products t threshold).Pairwise (fun a b => b.confidence ≤ a.confidence) := by
  cases hb : bracketManualFires t with
  | false => rw [stageBracket_eq hb]; exact pairwise_stageAssorted products _ threshold
  | true => rw [stageBracket_fires hb rfl]; simp

/-- A price-and-date overwrite never changes the code cell, so the row mask
is stable under the update map. -/
theorem codeMask_update (code : String) (np : ℚ) (e : String) (p : Product) :
    codeMask code { p with wholesale_price := np, effective_date := e } = codeMask code p := rfl

/-- The first masked row of the updated rows is the updated first masked
row. -/
theorem find?_codeMask_map {code : String} {np : ℚ} {e : String} {rows : List Product}
    {p0 : Product} (h : rows.find? (codeMask code) = some p0) :
    (rows.map (fun p =>
        if codeMask code p then { p with wholesale_price := np, effective_date := e }
        else p)).find? (codeMask code) =
      some { p0 with wholesale_price := np, effective_date := e } := by
  induction rows with
  | nil => simp at h
  | cons r rest ih =>
    by_cases hr : codeMask code r = true
    · rw [List.find?_cons_of_pos _ hr] at h
      rw [Option.some.injEq] at h
      subst h
      simp only [List.map_cons, hr, if_true]
      exact List.find?_cons_of_pos _ (by rw [codeMask_update]; exact hr)
    · rw [List.find?_cons_of_neg _ (by simpa using hr)] at h
      simp only [List.map_cons, hr, if_false]
      rw [List.find?_cons_of_neg _ (by simpa using hr)]
      exact ih h

/-- The quantity scanner succeeds whenever some `x` is followed by optional
whitespace and a digit. -/
theorem qtyScan_isSome_of_witness {cs : List Char} (h : XNumWitness cs) :
    (qtyScan cs).isSome = true := by
  obtain ⟨l1, l2, heq, d, hd, hdig⟩ := h
  subst heq
  induction l1 with
  | nil =>
    show (qtyScan ('x' :: l2)).isSome = true
    simp only [qtyScan, if_pos rfl]
    cases hL : l2.dropWhile isSpace with
    | nil => rw [hL] at hd; simp at hd
    | cons d0 t =>
      rw [hL] at hd
      simp only [List.head?_cons, Option.some.injEq] at hd
      subst hd
      simp [List.takeWhile_cons, hdig]
  | cons a l1' ih =>
    show (qtyScan (a :: (l1' ++ 'x' :: l2))).isSome = true
    simp only [qtyScan]
    by_cases ha : a = 'x'
    · rw [if_pos ha]
      split
      · exact ih
      · simp
    · rw [if_neg ha]
      exact ih

/-! ## The claims -/

/-- C1: for every catalogue, eBay title and threshold, every candidate in the
list returned by `match_ebay_title_enhanced` has a confidence in `[0, 1]`:
the generic path clamps `score + bonuses - penalties` into the unit interval
before the threshold test, and every override path (product set, assorted
cosmetics, special rule, manual cost, Kojie San bracket) sets confidence to
exactly `1.0`. -/
theorem C1_confidence_in_unit_interval :
    ∀ (products : List Product) (title : String) (threshold : ℚ),
      ∀ m ∈ match_ebay_title_enhanced products title threshold,
        0 ≤ m.confidence ∧ m.confidence ≤ 1 := by
  intro products title threshold m h
  simp only [match_ebay_title_enhanced] at h
  split at h
  · exact conf_stageBracket h
  · have h1 := conf_psCandidates h
    rw [h1]
    exact ⟨by norm_num, le_refl 1⟩

/-- C1 witness: the bound instantiated at the assorted-cosmetics candidate
of a concrete call. -/
theorem C1_witness :
    0 ≤ assortedCandFlawlessly.confidence ∧ assortedCandFlawlessly.confidence ≤ 1 :=
  C1_confidence_in_unit_interval [] "flawlessly u" (7/10) assortedCandFlawlessly (by
    rw [match_eq_stageBracket (by decide :
          psCandidates [] (handle_product_sets "flawlessly u") = []),
        stageBracket_eq (by decide : bracketManualFires (clean_silka_title "flawlessly u") = false),
        stageAssorted_pos (by decide :
          is_assorted_cosmetics (effectiveTitle (clean_silka_title "flawlessly u")) = true)]
    exact List.mem_singleton.mpr rfl)

/-- C2 counterexample: the special-rule override path returns a catalogue
product whose detected type (`toner`) differs from the detected type of the
title (`soap`), so the hard type filter does not extend to the override
paths as the claim states. -/
theorem C2_counterexample_special_rule_bypasses_type_filter :
    normalize_product_type "gluta-c facial toner 100ml soap" = some "soap" ∧
    normalize_product_type tonerProd.cms_product_name = some "toner" ∧
    match_ebay_title_enhanced [tonerProd] "gluta-c facial toner 100ml soap" (7/10) =
      [⟨some "GC-TONER", "Gluta-C Skin Lightening & Brightening Facial Toner 100ml", 1, 5,
        none, none⟩] :=
  ⟨by decide, by decide, rfl⟩

/-- C2 as amended: the hard type filter holds for every candidate produced by
the generic scoring stage (both types detected implies they agree), and a
title that triggers no override is answered exactly by the generic stage;
override-path candidates bypass the filter. -/
theorem C2_hard_type_filter_in_generic_stage :
    (∀ (products : List Product) (title : String) (threshold : ℚ),
      (stageGeneric products title threshold).all
        (fun m => typeCompat title m.cms_name) = true) ∧
    (∀ (products : List Product) (title : String) (threshold : ℚ),
      psCandidates products (handle_product_sets title) = [] →
      bracketManualFires (clean_silka_title title) = false →
      is_assorted_cosmetics (effectiveTitle (clean_silka_title title)) = false →
      apply_special_matching_rule (effectiveTitle (clean_silka_title title)) = none →
      get_manual_cost (effectiveTitle (clean_silka_title title)) = none →
      match_ebay_title_enhanced products title threshold =
        stageGeneric products (effectiveTitle (clean_silka_title title)) threshold) := by
  constructor
  · intro products title threshold
    rw [List.all_eq_true]
    intro m hm
    obtain ⟨p, _, hs⟩ := mem_stageGeneric hm
    rw [scoreOne_name hs]
    unfold typeCompat
    cases hA : normalize_product_type title with
    | none => simp
    | some a =>
      cases hB : normalize_product_type p.cms_product_name with
      | none => simp
      | some b =>
        simp only [decide_eq_true_eq]
        by_contra hne
        rw [hA] at hs
        rw [scoreOne_skips_type_mismatch hB hne] at hs
        exact Option.noConfusion hs
  · intro products title threshold h1 h2 h3 h4 h5
    rw [match_eq_stageBracket h1, stageBracket_eq h2, stageAssorted_neg h3,
        stageSpecial_none h4, stageManual_none h5]

/-- C2 witness: both conjuncts instantiated at concrete inputs with all
hypotheses discharged by evaluation. -/
theorem C2_witness :
    (stageGeneric [tonerProd] "zzz soap" (7/10)).all
      (fun m => typeCompat "zzz soap" m.cms_name) = true ∧
    match_ebay_title_enhanced [] "zzz" (7/10) =
      stageGeneric [] (effectiveTitle (clean_silka_title "zzz")) (7/10) :=
  ⟨C2_hard_type_filter_in_generic_stage.1 [tonerProd] "zzz soap" (7/10),
   C2_hard_type_filter_in_generic_stage.2 [] "zzz" (7/10) (by decide) (by decide) (by decide)
     (by decide) (by decide)⟩

/-- C3 counterexample: `clean_title` strips each marketplace suffix only
once, so a title ending in a repeated suffix is not a fixed point after one
cleaning: one pass maps `"a - ph - ph"` to `"a - ph"`, a second pass maps it
to `"a"`. -/
theorem C3_counterexample_clean_title_not_idempotent :
    clean_title (clean_title "a - ph - ph") ≠ clean_title "a - ph - ph" := by
  have h1 : clean_title "a - ph - ph" = "a - ph" := by
    simp [clean_title, lowerL, stripMarket, suffixTail, collapseWs, splitW, joinW, isSpace]
  have h2 : clean_title "a - ph" = "a" := by
    simp [clean_title, lowerL, stripMarket, suffixTail, collapseWs, splitW, joinW, isSpace]
  rw [h1, h2]
  decide

/-- C3 as amended: `clean_title` is idempotent on every title whose cleaned
form does not itself end in one of the marketplace suffixes; re-cleaning an
already-cleaned text (lowercased, suffix-free, whitespace-collapsed) changes
nothing. -/
theorem C3_clean_title_idempotent_without_residual_suffix :
    ∀ s : String,
      (∀ w ∈ marketSuffixes, hasMarketSuffix w (clean_title s).toList = false) →
      clean_title (clean_title s) = clean_title s := by
  intro s h
  have hfix := chars_clean_title_lower s
  have hlow : lowerL (clean_title s).toList = (clean_title s).toList := map_id_of_fixed hfix
  have h1 := h "philippines" (by simp [marketSuffixes])
  have h2 := h "ph" (by simp [marketSuffixes])
  have h3 := h "usa" (by simp [marketSuffixes])
  have h4 := h "uk" (by simp [marketSuffixes])
  have h5 := h "authentic" (by simp [marketSuffixes])
  show String.mk (collapseWs (stripMarket "authentic" (stripMarket "uk" (stripMarket "usa"
      (stripMarket "ph" (stripMarket "philippines" (lowerL (clean_title s).toList))))))) =
    clean_title s
  rw [hlow, stripMarket_id h1, stripMarket_id h2, stripMarket_id h3, stripMarket_id h4,
    stripMarket_id h5]
  show String.mk (collapseWs (collapseWs (stripMarket "authentic" (stripMarket "uk"
      (stripMarket "usa" (stripMarket "ph"
        (stripMarket "philippines" (lowerL s.toList)))))))) = clean_title s
  rw [collapseWs_idem]
  rfl

/-- C3 witness: idempotence instantiated at a title whose cleaned form has no
residual suffix. -/
theorem C3_witness :
    clean_title (clean_title "Kojie San Soap 100g - Philippines") =
      clean_title "Kojie San Soap 100g - Philippines" := by
  have hcv : clean_title "Kojie San Soap 100g - Philippines" = "kojie san soap 100g" := by
    simp [clean_title, lowerL, stripMarket, suffixTail, collapseWs, splitW, joinW, isSpace]
  refine C3_clean_title_idempotent_without_residual_suffix _ ?_
  rw [hcv]
  intro w hw
  fin_cases hw <;> decide

/-- C4 counterexample: with an empty catalogue (the missing-file substitute)
a call whose title carries an assorted-cosmetics brand token still returns a
synthetic candidate, so not every subsequent call returns an empty list. -/
theorem C4_counterexample_assorted_fires_on_empty_catalogue :
    match_ebay_title_enhanced [] "flawlessly u" (7/10) ≠ [] := by
  rw [show match_ebay_title_enhanced [] "flawlessly u" (7/10) = [assortedCandFlawlessly]
    from rfl]
  simp

/-- C4 as amended: a missing catalogue file yields an empty DataFrame with
the expected columns plus a logged error (no crash), and on the empty
catalogue every call whose title does not hit a catalogue-independent
synthetic override (the Kojie San 45g bracket, assorted cosmetics, or the
manual cost table) returns an empty candidate list. -/
theorem C4_missing_file_empty_catalogue :
    (∀ f : String,
      load_catalogue none f =
        (⟨expectedColumns, []⟩, [⟨.error, "Catalogue file " ++ f ++ " not found"⟩])) ∧
    (∀ (title : String) (threshold : ℚ),
      bracketManualFires (clean_silka_title title) = false →
      is_assorted_cosmetics (effectiveTitle (clean_silka_title title)) = false →
      get_manual_cost (effectiveTitle (clean_silka_title title)) = none →
      match_ebay_title_enhanced [] title threshold = []) := by
  constructor
  · intro f
    rfl
  · intro title threshold h1 h2 h3
    rw [match_eq_stageBracket (psCandidates_nil _), stageBracket_eq h1, stageAssorted_neg h2,
        stageSpecial_nil, stageManual_none h3, stageGeneric_nil]

/-- C4 witness: the empty-catalogue behaviour instantiated at a plain title
with all override misses discharged by evaluation. -/
theorem C4_witness :
    load_catalogue none "data/input/cms_product_catalogue.csv" =
      (⟨expectedColumns, []⟩,
       [⟨.error, "Catalogue file " ++ "data/input/cms_product_catalogue.csv" ++ " not found"⟩]) ∧
    match_ebay_title_enhanced [] "hello" (7/10) = [] :=
  ⟨C4_missing_file_empty_catalogue.1 "data/input/cms_product_catalogue.csv",
   C4_missing_file_empty_catalogue.2 "hello" (7/10) (by decide) (by decide) (by decide)⟩

/-- C5 counterexample: a title matching a special rule whose canonical
product is present in the catalogue, but carrying an assorted-cosmetics
brand token, is answered by the earlier assorted-cosmetics stage, not by the
special rule. -/
theorem C5_counterexample_assorted_preempts_special_rule :
    apply_special_matching_rule "flawlessly u gluta-c facial toner 100ml" =
      some "Gluta-C Skin Lightening & Brightening Facial Toner 100ml" ∧
    tonerProd.cms_product_name = "Gluta-C Skin Lightening & Brightening Facial Toner 100ml" ∧
    match_ebay_title_enhanced [tonerProd] "flawlessly u gluta-c facial toner 100ml" (7/10) =
      [⟨some "ASSORTED_COSMETICS", "Assorted Cosmetics", 1, 1.50,
        some "flawlessly_u_aggregation", none⟩] :=
  ⟨by decide, by decide, rfl⟩

/-- C5 as amended: for every title that reaches the special-rule stage (no
product-set resolution, no Kojie San 45g bracket override, no
assorted-cosmetics token on the effective title), a matching rule whose
canonical name is in the catalogue yields that product as the single
confidence-1.0 candidate regardless of what the generic scorer would say;
when the canonical name is absent the rule falls through to the manual-cost
stage instead of raising. -/
theorem C5_special_rule_override_precedence :
    (∀ (products : List Product) (title : String) (threshold : ℚ) (name : String) (p : Product),
      psCandidates products (handle_product_sets title) = [] →
      bracketManualFires (clean_silka_title title) = false →
      is_assorted_cosmetics (effectiveTitle (clean_silka_title title)) = false →
      apply_special_matching_rule (effectiveTitle (clean_silka_title title)) = some name →
      products.find? (fun q => q.cms_product_name = name) = some p →
      match_ebay_title_enhanced products title threshold =
        [⟨p.cms_product_code, p.cms_product_name, 1, p.wholesale_price, none, none⟩]) ∧
    (∀ (products : List Product) (title : String) (threshold : ℚ) (name : String),
      psCandidates products (handle_product_sets title) = [] →
      bracketManualFires (clean_silka_title title) = false →
      is_assorted_cosmetics (effectiveTitle (clean_silka_title title)) = false →
      apply_special_matching_rule (effectiveTitle (clean_silka_title title)) = some name →
      products.find? (fun q => q.cms_product_name = name) = none →
      match_ebay_title_enhanced products title threshold =
        stageManual products (effectiveTitle (clean_silka_title title)) threshold) := by
  constructor
  · intro products title threshold name p h1 h2 h3 h4 h5
    rw [match_eq_stageBracket h1, stageBracket_eq h2, stageAssorted_neg h3,
        stageSpecial_hit h4 h5]
  · intro products title threshold name h1 h2 h3 h4 h5
    rw [match_eq_stageBracket h1, stageBracket_eq h2, stageAssorted_neg h3,
        stageSpecial_nomatch h4 h5]

/-- C5 witness: both conjuncts instantiated, with the canonical toner product
present respectively absent. -/
theorem C5_witness :
    match_ebay_title_enhanced [tonerProd] "gluta-c facial toner 100ml" (7/10) =
      [⟨tonerProd.cms_product_code, tonerProd.cms_product_name, 1, tonerProd.wholesale_price,
        none, none⟩] ∧
    match_ebay_title_enhanced [] "gluta-c facial toner 100ml" (7/10) =
      stageManual [] (effectiveTitle (clean_silka_title "gluta-c facial toner 100ml")) (7/10) :=
  ⟨C5_special_rule_override_precedence.1 [tonerProd] "gluta-c facial toner 100ml" (7/10)
      "Gluta-C Skin Lightening & Brightening Facial Toner 100ml" tonerProd
      (by decide) (by decide) (by decide) (by decide) rfl,
   C5_special_rule_override_precedence.2 [] "gluta-c facial toner 100ml" (7/10)
      "Gluta-C Skin Lightening & Brightening Facial Toner 100ml"
      (by decide) (by decide) (by decide) (by decide) rfl⟩

/-- C6 counterexample: a title carrying the `flawlessly u` brand token that
also parses as an Extract product set is answered by the earlier product-set
stage, so not every title with an assorted-cosmetics token short-circuits to
the `ASSORTED_COSMETICS` candidate. -/
theorem C6_counterexample_product_set_preempts_assorted :
    is_assorted_cosmetics "Extract Soap 125g & Lotion 200ml Set Flawlessly U" = true ∧
    match_ebay_title_enhanced [mkProd "E1" extractSoapName]
        "Extract Soap 125g & Lotion 200ml Set Flawlessly U" (7/10) =
      [⟨some "E1", extractSoapName, 1, 5, some "product_set", none⟩] :=
  ⟨by decide, rfl⟩

/-- C6 as amended: a title that reaches the assorted-cosmetics check with a
brand token on the effective title (no product-set resolution, no Kojie San
45g bracket override) short-circuits before the generic scorer to exactly
one candidate with code `ASSORTED_COSMETICS`, confidence exactly `1.0`, tag
`flawlessly_u_aggregation`, and the unit price computed by
`get_flawlessly_u_unit_cost` from the box-price table; a title with no soap
and no lotion-with-pump subtype gets the default unit price `1.50`. -/
theorem C6_assorted_cosmetics_short_circuit :
    (∀ (products : List Product) (title : String) (threshold : ℚ),
      psCandidates products (handle_product_sets title) = [] →
      bracketManualFires (clean_silka_title title) = false →
      is_assorted_cosmetics (effectiveTitle (clean_silka_title title)) = true →
      match_ebay_title_enhanced products title threshold =
        [⟨some "ASSORTED_COSMETICS", "Assorted Cosmetics", 1,
          get_flawlessly_u_unit_cost (effectiveTitle (clean_silka_title title)),
          some "flawlessly_u_aggregation", none⟩]) ∧
    (∀ t : String,
      containsSub "soap".toList (lowerL t.toList) = false →
      (containsSub "lotion".toList (lowerL t.toList) &&
        containsSub "pump".toList (lowerL t.toList)) = false →
      get_flawlessly_u_unit_cost t = 1.50) := by
  constructor
  · intro products title threshold h1 h2 h3
    rw [match_eq_stageBracket h1, stageBracket_eq h2, stageAssorted_pos h3]
  · intro t h1 h2
    simp_all [get_flawlessly_u_unit_cost]

/-- C6 witness: the short-circuit and the default unit price instantiated at
a concrete assorted-cosmetics title. -/
theorem C6_witness :
    match_ebay_title_enhanced [] "flawlessly u" (7/10) =
      [⟨some "ASSORTED_COSMETICS", "Assorted Cosmetics", 1,
        get_flawlessly_u_unit_cost (effectiveTitle (clean_silka_title "flawlessly u")),
        some "flawlessly_u_aggregation", none⟩] ∧
    get_flawlessly_u_unit_cost "flawlessly u" = 1.50 :=
  ⟨C6_assorted_cosmetics_short_circuit.1 [] "flawlessly u" (7/10) (by decide) (by decide)
      (by decide),
   C6_assorted_cosmetics_short_circuit.2 "flawlessly u" (by decide) (by decide)⟩

/-- C7 counterexample: `update_price` has no `return` statement on either
path, so the value returned to the caller is Python `None` for an unknown
code exactly as for a known code; the failure is not distinguishable to the
caller through the return value. -/
theorem C7_counterexample_return_indistinguishable :
    (update_price twoRowState "MISSING" 9 none "2025-10-12").ret =
      (update_price twoRowState "A" 9 none "2025-10-12").ret ∧
    twoRowState.df.rows.find? (codeMask "MISSING") = none ∧
    (twoRowState.df.rows.find? (codeMask "A")).isSome = true :=
  ⟨rfl, by decide, by decide⟩

/-- C7 as amended: for every product code not present in the catalogue,
`update_price` leaves the in-memory catalogue, the price-history log and the
persisted file unchanged and reports the failure only by logging an error;
the function returns `None` exactly as on success, so the caller sees no
distinct `ProductNotFound` value. -/
theorem C7_unknown_code_logs_and_mutates_nothing :
    ∀ (st : ManagerState) (code : String) (np : ℚ) (eff : Option String) (today : String),
      st.df.rows.find? (codeMask code) = none →
      (update_price st code np eff today).state = st ∧
      (update_price st code np eff today).logs =
        [⟨.error, "Product code " ++ code ++ " not found"⟩] ∧
      (update_price st code np eff today).ret = .none := by
  intro st code np eff today h
  simp [update_price, h]

/-- C7 witness: the frame property instantiated at a concrete state and an
absent code. -/
theorem C7_witness :
    (update_price twoRowState "ZZZ" 9 none "2025-10-12").state = twoRowState ∧
    (update_price twoRowState "ZZZ" 9 none "2025-10-12").logs =
      [⟨.error, "Product code " ++ "ZZZ" ++ " not found"⟩] ∧
    (update_price twoRowState "ZZZ" 9 none "2025-10-12").ret = .none :=
  C7_unknown_code_logs_and_mutates_nothing twoRowState "ZZZ" 9 none "2025-10-12" (by decide)

/-- C8: for a code present in the catalogue (unique, as the mask matches
exactly one row), `update_price` appends exactly one history entry recording
code, old price, new price and changed date, overwrites the wholesale price
and effective date of the masked row only (every other row is unchanged),
persists the full updated catalogue to the file, keeps all pre-existing
history entries, and a repeated identical update appends a second,
independent history entry. -/
theorem C8_update_price_known_code :
    ∀ (st : ManagerState) (code : String) (np : ℚ) (eff : Option String) (today : String)
      (p0 : Product),
      st.df.rows.countP (codeMask code) = 1 →
      st.df.rows.find? (codeMask code) = some p0 →
      ((update_price st code np eff today).state.price_history =
          st.price_history ++ [⟨code, p0.wholesale_price, np, eff.getD today⟩]) ∧
      ((update_price st code np eff today).state.df.rows.length = st.df.rows.length) ∧
      (∀ i (hi : i < st.df.rows.length)
          (hi2 : i < (update_price st code np eff today).state.df.rows.length),
        (codeMask code (st.df.rows.get ⟨i, hi⟩) = false →
          (update_price st code np eff today).state.df.rows.get ⟨i, hi2⟩ =
            st.df.rows.get ⟨i, hi⟩) ∧
        (codeMask code (st.df.rows.get ⟨i, hi⟩) = true →
          (update_price st code np eff today).state.df.rows.get ⟨i, hi2⟩ =
            { st.df.rows.get ⟨i, hi⟩ with
                wholesale_price := np, effective_date := eff.getD today })) ∧
      ((update_price st code np eff today).state.file =
          some (update_price st code np eff today).state.df) ∧
      ((update_price (update_price st code np eff today).state code np eff today).state.price_history =
          st.price_history ++ [⟨code, p0.wholesale_price, np, eff.getD today⟩,
            ⟨code, np, np, eff.getD today⟩]) := by
  intro st code np eff today p0 hcount hfind
  refine ⟨?_, ?_, ?_, ?_, ?_⟩
  · simp [update_price, hfind]
  · simp [update_price, hfind]
  · intro i hi hi2
    constructor
    · intro hmask
      simp only [List.get_eq_getElem] at hmask
      simp only [update_price, hfind, List.get_eq_getElem, List.getElem_map]
      simp [hmask]
    · intro hmask
      simp only [List.get_eq_getElem] at hmask
      simp only [update_price, hfind, List.get_eq_getElem, List.getElem_map]
      simp [hmask]
  · simp [update_price, hfind]
  · simp only [update_price, hfind]
    simp only [update_price, find?_codeMask_map hfind]
    simp

/-- C8 witness: the update behaviour instantiated at a concrete two-row
state and a present, unique code. -/
theorem C8_witness :
    ((update_price twoRowState "A" 9 none "2025-10-12").state.price_history =
        twoRowState.price_history ++
          [⟨"A", (mkProd "A" "Prod A").wholesale_price, 9, (none : Option String).getD "2025-10-12"⟩]) ∧
    ((update_price twoRowState "A" 9 none "2025-10-12").state.df.rows.length =
        twoRowState.df.rows.length) ∧
    (∀ i (hi : i < twoRowState.df.rows.length)
        (hi2 : i < (update_price twoRowState "A" 9 none "2025-10-12").state.df.rows.length),
      (codeMask "A" (twoRowState.df.rows.get ⟨i, hi⟩) = false →
        (update_price twoRowState "A" 9 none "2025-10-12").state.df.rows.get ⟨i, hi2⟩ =
          twoRowState.df.rows.get ⟨i, hi⟩) ∧
      (codeMask "A" (twoRowState.df.rows.get ⟨i, hi⟩) = true →
        (update_price twoRowState "A" 9 none "2025-10-12").state.df.rows.get ⟨i, hi2⟩ =
          { twoRowState.df.rows.get ⟨i, hi⟩ with
              wholesale_price := 9, effective_date := (none : Option String).getD "2025-10-12" })) ∧
    ((update_price twoRowState "A" 9 none "2025-10-12").state.file =
        some (update_price twoRowState "A" 9 none "2025-10-12").state.df) ∧
    ((update_price (update_price twoRowState "A" 9 none "2025-10-12").state "A" 9 none
        "2025-10-12").state.price_history =
      twoRowState.price_history ++
        [⟨"A", (mkProd "A" "Prod A").wholesale_price, 9, (none : Option String).getD "2025-10-12"⟩,
         ⟨"A", 9, 9, (none : Option String).getD "2025-10-12"⟩]) :=
  C8_update_price_known_code twoRowState "A" 9 none "2025-10-12" (mkProd "A" "Prod A")
    (by decide) rfl

/-- C9 counterexample: a product-set title against a catalogue whose first
row is the Extract lotion and whose other five rows repeat the Extract soap
name returns six candidates (more than five), ordered set-item-major (all
soap rows before the lotion row), which also breaks catalogue scan order for
equal confidences. -/
theorem C9_counterexample_product_set_returns_six :
    (match_ebay_title_enhanced dupCatalogue "Extract Soap 125g & Lotion 200ml Set" (7/10)).map
        (fun m => m.cms_code) =
      [some "S1", some "S2", some "S3", some "S4", some "S5", some "L1"] ∧
    dupCatalogue.map (fun p => p.cms_product_code) =
      [some "L1", some "S1", some "S2", some "S3", some "S4", some "S5"] ∧
    (match_ebay_title_enhanced dupCatalogue "Extract Soap 125g & Lotion 200ml Set" (7/10)).length =
      6 :=
  ⟨by decide, by decide, by decide⟩

/-- C9 as amended: every returned list is sorted by descending confidence;
when the product-set stage does not resolve, the list has at most five
candidates and, when no override fires at all, it is exactly the stable
descending sort of the scored scan truncated to five, where the stable sort
preserves the original (scan) order of equal confidences; the product-set
path returns one confidence-1.0 candidate per (set item, catalogue row) pair
in set-item-major order and may exceed five when names repeat. -/
theorem C9_ranking_sorted_stable_top5 :
    (∀ (products : List Product) (title : String) (threshold : ℚ),
      (match_ebay_title_enhanced products title threshold).Pairwise
        (fun a b => b.confidence ≤ a.confidence)) ∧
    (∀ (products : List Product) (title : String) (threshold : ℚ),
      psCandidates products (handle_product_sets title) = [] →
      (match_ebay_title_enhanced products title threshold).length ≤ 5) ∧
    (∀ (products : List Product) (title : String) (threshold : ℚ),
      psCandidates products (handle_product_sets title) = [] →
      bracketManualFires (clean_silka_title title) = false →
      is_assorted_cosmetics (effectiveTitle (clean_silka_title title)) = false →
      apply_special_matching_rule (effectiveTitle (clean_silka_title title)) = none →
      get_manual_cost (effectiveTitle (clean_silka_title title)) = none →
      match_ebay_title_enhanced products title threshold =
        (sortD (products.filterMap
          (scoreOne (effectiveTitle (clean_silka_title title))
            (normalize_product_type (effectiveTitle (clean_silka_title title)))
            (extract_size_and_quantity (effectiveTitle (clean_silka_title title)))
            (clean_title (effectiveTitle (clean_silka_title title)))
            (["box", "case", "bulk", "wholesale"].any (fun w =>
              containsSub w.toList (lowerL (effectiveTitle (clean_silka_title title)).toList)))
            threshold))).take 5) ∧
    (∀ (l : List MatchResult) (c : ℚ),
      (sortD l).filter (fun m => decide (m.confidence = c)) =
        l.filter (fun m => decide (m.confidence = c))) := by
  refine ⟨?_, ?_, ?_, fun l c => sortD_filter c l⟩
  · intro products title threshold
    simp only [match_ebay_title_enhanced]
    split
    · exact pairwise_stageBracket products _ threshold
    · exact pairwise_of_all_one (fun m hm => conf_psCandidates hm)
  · intro products title threshold h1
    rw [match_eq_stageBracket h1]
    exact length_stageBracket_le products _ threshold
  · intro products title threshold h1 h2 h3 h4 h5
    rw [match_eq_stageBracket h1, stageBracket_eq h2, stageAssorted_neg h3,
        stageSpecial_none h4, stageManual_none h5, stageGeneric_eq]

/-- C9 witness: the hypothesis-bearing conjuncts instantiated at concrete
no-override inputs. -/
theorem C9_witness :
    (match_ebay_title_enhanced [] "hello" (7/10)).length ≤ 5 ∧
    match_ebay_title_enhanced [] "hello" (7/10) =
      (sortD (([] : List Product).filterMap
        (scoreOne (effectiveTitle (clean_silka_title "hello"))
          (normalize_product_type (effectiveTitle (clean_silka_title "hello")))
          (extract_size_and_quantity (effectiveTitle (clean_silka_title "hello")))
          (clean_title (effectiveTitle (clean_silka_title "hello")))
          (["box", "case", "bulk", "wholesale"].any (fun w =>
            containsSub w.toList (lowerL (effectiveTitle (clean_silka_title "hello")).toList)))
          (7/10)))).take 5 :=
  ⟨C9_ranking_sorted_stable_top5.2.1 [] "hello" (7/10) (by decide),
   C9_ranking_sorted_stable_top5.2.2.1 [] "hello" (7/10) (by decide) (by decide) (by decide)
     (by decide) (by decide)⟩

/-- C10: the quantity regex `x\s*(\d+)` matches any `x`, including the final
letter of an ordinary word, followed by optional whitespace and digits, so
such titles are flagged as multipacks; in particular
`extract_size_and_quantity "glutamax 90ml"` reports a multipack of quantity
90, and scoring that title against the catalogue name
`"GlutaMax Lightening & Moisturizing Lotion 90ml"` (not a multipack) applies
the multipack-mismatch penalty of 0.4 as if a pack quantity were stated. -/
theorem C10_x_digit_flags_multipack :
    (∀ s : String, XNumWitness (lowerL s.toList) →
      (extract_size_and_quantity s).is_multipack = true) ∧
    extract_size_and_quantity "glutamax 90ml" = ⟨some "90ml", some 90, true⟩ ∧
    multipackAdjust (extract_size_and_quantity "glutamax 90ml")
      (extract_size_and_quantity "GlutaMax Lightening & Moisturizing Lotion 90ml")
      "GlutaMax Lightening & Moisturizing Lotion 90ml" = (0, 0.4) := by
  refine ⟨?_, by decide, rfl⟩
  intro s h
  simp only [extract_size_and_quantity]
  exact qtyScan_isSome_of_witness h

/-- C10 witness: the universal conjunct applied to the concrete title with
the `x` of `glutamax` followed by a space and digits. -/
theorem C10_witness :
    (extract_size_and_quantity "glutamax 90ml").is_multipack = true :=
  C10_x_digit_flags_multipack.1 "glutamax 90ml"
    ⟨"glutama".toList, " 90ml".toList, by decide, '9', by decide, by decide⟩

end KBL
